import Mathlib

/-!
Verification of the Markdown analysis/conversion core of the
obsidian workspace connector (NoteAnalyzer, SheetsConverter,
SlidesConverter, DocsConverter).

Strings of the JavaScript runtime are modelled as `List Char` (`Str`).
JavaScript regular expressions that the source applies per line are
modelled as total recursive matchers over `Str`; the `m`-flag regexes
(`^...$` applied line by line) are modelled on the `'\n'`-split lines.
-/

/-- Character strings of the embedded programs. -/
abbrev Str := List Char

/-- Whitespace class of JavaScript (`\s` in regexes, and `String.prototype.trim`). -/
def isJsWs (c : Char) : Bool :=
  let v := c.toNat
  v = 32 || v = 9 || v = 10 || v = 11 || v = 12 || v = 13 ||
  v = 0xa0 || v = 0x1680 || (0x2000 ≤ v && v ≤ 0x200a) ||
  v = 0x2028 || v = 0x2029 || v = 0x202f || v = 0x205f || v = 0x3000 || v = 0xfeff

/-- Digit test (`\d` in JavaScript regexes). -/
def isDigitCh (c : Char) : Bool := 48 ≤ c.toNat && c.toNat ≤ 57

/-- Left trim: drop leading JavaScript whitespace. -/
def trimL (s : Str) : Str := s.dropWhile isJsWs

/-- Model of `String.prototype.trim`. -/
def trimStr (s : Str) : Str := ((trimL s).reverse.dropWhile isJsWs).reverse

/-- Model of `String.prototype.split(c)` for a single-character separator:
always returns at least one (possibly empty) segment. -/
def splitOnChar (ch : Char) : Str → List Str
  | [] => [[]]
  | c :: rest =>
    match splitOnChar ch rest with
    | [] => [[c]]
    | r :: rs => if c = ch then [] :: r :: rs else (c :: r) :: rs

/-- Model of `Array.prototype.join(sep)`. -/
def joinWith (sep : Str) : List Str → Str
  | [] => []
  | [l] => l
  | l :: ls => l ++ sep ++ joinWith sep ls

/-- Lines of a JavaScript string, `content.split('\n')`. -/
def linesOf (s : Str) : List Str := splitOnChar '\n' s

/-- Prefix test on character lists (`String.prototype.startsWith` for literals). -/
def seqStartsWith : Str → Str → Bool
  | [], _ => true
  | _ :: _, [] => false
  | p :: ps, c :: cs => p = c && seqStartsWith ps cs

/-- Substring test (`String.prototype.includes` for literal patterns). -/
def containsSeq (pat : Str) : Str → Bool
  | [] => seqStartsWith pat []
  | c :: rest => seqStartsWith pat (c :: rest) || containsSeq pat rest

/-- ASCII lower-casing of one character, the fragment of
`String.prototype.toLowerCase` exercised by the embedded inputs. -/
def lowerCh (c : Char) : Char :=
  if 65 ≤ c.toNat && c.toNat ≤ 90 then Char.ofNat (c.toNat + 32) else c

/-- Lower-cased string (`s.toLowerCase()`). -/
def lowerStr (s : Str) : Str := s.map lowerCh

/-- Case-insensitive literal-prefix test (a literal under the `i` regex flag,
anchored at the start). -/
def ciStartsWith (pat s : Str) : Bool := seqStartsWith (lowerStr pat) (lowerStr s)

/-- Case-insensitive substring test (`/lit/i.test(s)`). -/
def ciContains (pat : Str) : Str → Bool
  | [] => seqStartsWith (lowerStr pat) []
  | c :: rest => ciStartsWith pat (c :: rest) || ciContains pat rest

/-- Decimal digit character. -/
def digitCh (n : Nat) : Char := Char.ofNat (48 + n)

/-- Fuel-driven decimal rendering used by `natStr`. -/
def natStrAux : Nat → Nat → Str
  | 0, _ => []
  | fuel + 1, n =>
    if n < 10 then [digitCh n] else natStrAux fuel (n / 10) ++ [digitCh (n % 10)]

/-- Decimal rendering of a natural number (JavaScript number-to-string for
the integer counts produced by the sources). -/
def natStr (n : Nat) : Str := natStrAux (n + 1) n

/-- Tail of a `\s+(.+)$` regex suffix: succeeds on a line remainder that starts
with a whitespace character and has at least one further character; the capture
is the remainder after the greedy whitespace run, except that when the whole
remainder is whitespace the backtracked capture is its last character. -/
def wsPlusCapture (rem : Str) : Option Str :=
  match rem with
  | [] => none
  | c :: cs =>
    if isJsWs c && !cs.isEmpty then
      match rem.dropWhile isJsWs with
      | [] => some [rem.getLastD ' ']
      | r :: rs => some (r :: rs)
    else none

/-- Count of leading `'#'` characters. -/
def hashCount (s : Str) : Nat := (s.takeWhile (· = '#')).length

/-- Matcher for `/^(#{1,k})\s+(.+)$/` on one line: returns the heading level and
the raw (untrimmed) capture. -/
def matchHashHeading (maxLevel : Nat) (l : Str) : Option (Nat × Str) :=
  let n := hashCount l
  if 1 ≤ n && n ≤ maxLevel then
    match wsPlusCapture (l.drop n) with
    | some cap => some (n, cap)
    | none => none
  else none

/-- Matcher for `/^[\-\*]\s+(.+)$/` on one line (unordered list item). -/
def matchUl (l : Str) : Option Str :=
  match l with
  | c :: rest => if c = '-' || c = '*' then wsPlusCapture rest else none
  | [] => none

/-- Matcher for `/^\d+\.\s+(.+)$/` on one line (ordered list item). -/
def matchOl (l : Str) : Option Str :=
  match l with
  | c :: _ =>
    if isDigitCh c then
      match l.dropWhile isDigitCh with
      | '.' :: rest => wsPlusCapture rest
      | _ => none
    else none
  | [] => none

namespace NoteAnalyzer

/-- Section of a note, `{ heading: string; content: string }` in
`NoteAnalyzer.splitIntoSections`. -/
structure MdSection where
  heading : Str
  content : Str
deriving DecidableEq, Repr

/-- Loop body of `NoteAnalyzer.splitIntoSections` (src/src/ai/NoteAnalyzer.ts,
lines 366..388): accumulate body lines, flush on every level-1..3 heading. -/
def sectionsGo : List Str → Str → List Str → List MdSection
  | [], h, c =>
    if !h.isEmpty || !c.isEmpty then [⟨h, joinWith ['\n'] c⟩] else []
  | l :: rest, h, c =>
    match matchHashHeading 3 l with
    | some (_, cap) =>
      (if !h.isEmpty || !c.isEmpty then [⟨h, joinWith ['\n'] c⟩] else []) ++
      sectionsGo rest (trimStr cap) []
    | none => sectionsGo rest h (c ++ [l])

/-- Sections before the final filter of `splitIntoSections`. -/
def rawSections (content : Str) : List MdSection :=
  sectionsGo (linesOf content) [] []

/-- `NoteAnalyzer.splitIntoSections` (lines 366..391), including the final
`sections.filter(s => s.heading && s.content.trim().length > 0)`. -/
def splitIntoSections (content : Str) : List MdSection :=
  (rawSections content).filter
    (fun s => !s.heading.isEmpty && !(trimStr s.content).isEmpty)

/-- `NoteAnalyzer.extractHeadings` (lines 162..170): every line matching
`/^(#{1,6})\s+(.+)$/`, with the text trimmed. -/
def extractHeadings (content : Str) : List (Nat × Str) :=
  (linesOf content).filterMap
    (fun l => (matchHashHeading 6 l).map (fun p => (p.1, trimStr p.2)))

/-- Leftmost `"---"` occurrence: `some (before, after)` when found. -/
def findTriple : Str → Option (Str × Str)
  | '-' :: '-' :: '-' :: rest => some ([], rest)
  | c :: rest =>
    match findTriple rest with
    | some (p, r) => some (c :: p, r)
    | none => none
  | [] => none

/-- Front-matter strip `content.replace(/^---[\s\S]*?---\n?/, '')` used by
`countParagraphs` and `countWords` (lines 128, 173). -/
def stripFrontmatter (content : Str) : Str :=
  match content with
  | '-' :: '-' :: '-' :: rest =>
    (match findTriple rest with
     | some (_, after) =>
       match after with
       | '\n' :: r => r
       | r => r
     | none => content)
  | _ => content

/-- Scanner for `String.prototype.split(/\n\n+/)`: the flag records that the
previous characters were part of a newline-run separator being consumed. -/
def spGo : Bool → Str → Str → List Str
  | _, acc, [] => [acc.reverse]
  | true, acc, '\n' :: rest => spGo true acc rest
  | false, acc, '\n' :: '\n' :: rest => acc.reverse :: spGo true [] rest
  | _, acc, c :: rest => spGo false (c :: acc) rest

/-- Model of `cleaned.split(/\n\n+/)`. -/
def splitParas (s : Str) : List Str := spGo false [] s

/-- Block filter of `NoteAnalyzer.countParagraphs` (lines 172..179). -/
def paraKeep (b : Str) : Bool :=
  let t := trimStr b
  !t.isEmpty && !(t.head? == some '#') && !(t.head? == some '|') && !(t.head? == some '-')

/-- `NoteAnalyzer.countParagraphs` (lines 172..179). -/
def countParagraphs (content : Str) : Nat :=
  ((splitParas (stripFrontmatter content)).filter paraKeep).length

/-- Test whether some line of the content starts, case-insensitively, with one
of the given words (a `/^(w1|w2|...)/im` test). -/
def lineStartsAnyCI (pats : List Str) (content : Str) : Bool :=
  (linesOf content).any (fun l => pats.any (fun p => ciStartsWith p l))

/-- Keywords of the `'report'` check in `analyzeDocs` (line 143). -/
def reportWords : List Str :=
  ["abstract".toList, "introduction".toList, "conclusion".toList, "references".toList]

/-- Keywords of the `'letter'` check in `analyzeDocs` (line 144). -/
def letterWords : List Str :=
  ["dear".toList, "sincerely".toList, "regards".toList]

/-- Content types of `DocsAnalysis['contentType']`. -/
inductive ContentType
  | article | report | notes | letter | general
deriving DecidableEq, Repr

/-- Content-type classification of `NoteAnalyzer.analyzeDocs`
(lines 141..145): sequential overriding assignments starting from `'general'`. -/
def contentTypeOf (content : Str) : ContentType :=
  let headings := extractHeadings content
  let paragraphCount := countParagraphs content
  let ct := ContentType.general
  let ct := if 3 ≤ headings.length ∧ 5 ≤ paragraphCount then ContentType.article else ct
  let ct := if lineStartsAnyCI reportWords content then ContentType.report else ct
  let ct := if lineStartsAnyCI letterWords content then ContentType.letter else ct
  let ct := if headings.length ≤ 2 ∧ paragraphCount ≤ 3 then ContentType.notes else ct
  ct

/-- Table-row test of `extractTables` (line 229): the trimmed line starts and
ends with `'|'`. -/
def isTableLine (t : Str) : Bool :=
  t.head? == some '|' && t.getLast? == some '|'

/-- Character class `[\s\-:|]` of the separator-row regex. -/
def sepClassCh (c : Char) : Bool :=
  isJsWs c || c = '-' || c = ':' || c = '|'

/-- Separator-row test `/^\|[\s\-:|]+\|$/.test(line)` (line 231). -/
def isSepLine (t : Str) : Bool :=
  3 ≤ t.length && t.head? == some '|' && t.getLast? == some '|' &&
  ((t.drop 1).dropLast.all sepClassCh)

/-- Cell splitting of `extractTables` (line 233):
`line.slice(1, -1).split('|').map(c => c.trim())` — no unescaping. -/
def innerCells (t : Str) : List Str :=
  (splitOnChar '|' ((t.drop 1).dropLast)).map trimStr

/-- Extracted pipe table, `ExtractedTable` of NoteAnalyzer.ts. -/
structure ExtractedTable where
  headers : List Str
  rows : List (List Str)
  startLine : Int
deriving DecidableEq, Repr

/-- Scan loop of `NoteAnalyzer.extractTables` (lines 218..256); the state is
`some (currentHeaders, currentRows, startLine)` exactly when `inTable` holds. -/
def tablesGo : List Str → Int → Option (List Str × List (List Str) × Int) → List ExtractedTable
  | [], _, st =>
    (match st with
     | some (h, r, sl) => if !h.isEmpty then [⟨h, r, sl⟩] else []
     | none => [])
  | l :: rest, i, st =>
    let t := trimStr l
    if isTableLine t then
      if isSepLine t then tablesGo rest (i + 1) st
      else
        match st with
        | none => tablesGo rest (i + 1) (some (innerCells t, [], i))
        | some (h, r, sl) => tablesGo rest (i + 1) (some (h, r ++ [innerCells t], sl))
    else
      match st with
      | none => tablesGo rest (i + 1) none
      | some (h, r, sl) =>
        (if !h.isEmpty then [⟨h, r, sl⟩] else []) ++ tablesGo rest (i + 1) none

/-- `NoteAnalyzer.extractTables` (lines 218..256). -/
def extractTables (content : Str) : List ExtractedTable :=
  tablesGo (linesOf content) 0 none

end NoteAnalyzer

namespace NoteAnalyzer

/-- Extracted list, `ExtractedList` of NoteAnalyzer.ts. -/
structure ExtractedList where
  title : Str
  items : List Str
  isNumbered : Bool
deriving DecidableEq, Repr

/-- Heading-marker strip `prev.replace(/^#{1,6}\s+/, '')` of `extractLists`
(line 278). -/
def stripHeadMarker (t : Str) : Str :=
  let n := hashCount t
  if 1 ≤ n && n ≤ 6 then
    match t.drop n with
    | c :: rest => if isJsWs c then (c :: rest).dropWhile isJsWs else t
    | [] => t
  else t

/-- Trailing-colon strip `.replace(/:$/, '')` (line 278). -/
def stripTrailColon (t : Str) : Str :=
  match t.getLast? with
  | some ':' => t.dropLast
  | _ => t

/-- List-title lookup of `extractLists` (lines 275..281): first preceding
non-blank line, with heading marker and trailing colon stripped.
`prevRev` holds the already-scanned lines, closest first. -/
def listTitleOf (prevRev : List Str) : Str :=
  match prevRev.find? (fun l => !(trimStr l).isEmpty) with
  | some l => stripTrailColon (stripHeadMarker (trimStr l))
  | none => []

/-- Scan loop of `NoteAnalyzer.extractLists` (lines 258..300). -/
def listsGo : List Str → List Str → List Str → Str → Bool → Bool → List ExtractedList
  | [], _, items, title, numbered, inList =>
    if inList && !items.isEmpty then [⟨title, items, numbered⟩] else []
  | l :: rest, prevRev, items, title, numbered, inList =>
    let ul := matchUl l
    let ol := matchOl l
    if ul.isSome || ol.isSome then
      let title2 := if !inList then listTitleOf prevRev else title
      let numbered2 := if !inList then ol.isSome else numbered
      let item := (ul.orElse (fun _ => ol)).getD []
      listsGo rest (l :: prevRev) (items ++ [item]) title2 numbered2 true
    else
      if inList && !items.isEmpty then
        ⟨title, items, numbered⟩ :: listsGo rest (l :: prevRev) [] [] numbered false
      else listsGo rest (l :: prevRev) items title numbered inList

/-- `NoteAnalyzer.extractLists` (lines 258..300). -/
def extractLists (content : Str) : List ExtractedList :=
  listsGo (linesOf content) [] [] [] false false

/-- Numerical datum of `extractNumericalData`; the value is the exact decimal
denoted by the matched digit string. -/
structure NumDatum where
  label : Str
  value : ℚ
deriving DecidableEq, Repr

/-- Natural number denoted by a digit string. -/
def natOfDigits (s : Str) : Nat :=
  s.foldl (fun a c => 10 * a + (c.toNat - 48)) 0

/-- Model of `parseFloat` on a comma-stripped `[\d,]+\.?\d*` match:
`none` is `NaN` (no digit present). -/
def decToQ (s : Str) : Option ℚ :=
  let intPart := s.takeWhile isDigitCh
  let fracPart :=
    match s.drop intPart.length with
    | '.' :: r => r.takeWhile isDigitCh
    | _ => []
  if intPart.isEmpty && fracPart.isEmpty then none
  else some ((natOfDigits intPart : ℚ) + (natOfDigits fracPart : ℚ) / (10 ^ fracPart.length : ℚ))

/-- Suffix parser for the number/unit/end part of the numeric-line regex
(line 308): `([\d,]+\.?\d*)\s*(%|명|개|원|달러|건)?$`, returning the raw
number capture. -/
def parseNumTail (s : Str) : Option Str :=
  let run1 := s.takeWhile (fun c => isDigitCh c || c = ',')
  if run1.isEmpty then none
  else
    let rest1 := s.drop run1.length
    let dotPart :=
      match rest1 with
      | '.' :: _ => ['.']
      | _ => []
    let rest2 := rest1.drop dotPart.length
    let run2 := rest2.takeWhile isDigitCh
    let rest3 := (rest2.drop run2.length).dropWhile isJsWs
    let restFinal :=
      if seqStartsWith "달러".toList rest3 then rest3.drop 2
      else
        match rest3 with
        | c :: r =>
          if c = '%' || c = '명' || c = '개' || c = '원' || c = '건' then r else rest3
        | [] => rest3
    if restFinal.isEmpty then some (run1 ++ dotPart ++ run2) else none

/-- Separator class `[:=\-–—]` of the numeric-line regex. -/
def numSepCh (c : Char) : Bool :=
  c = ':' || c = '=' || c = '-' || c = '–' || c = '—'

/-- Lazy-label enumeration of the numeric-line regex: label split positions
tried shortest first, then `[\s]*`, a separator, `\s*`, and the number tail. -/
def tryLabelSplits (s : Str) : Option (Str × Str) :=
  (List.range s.length).findSome? (fun k =>
    let label := s.take (k + 1)
    match (s.drop (k + 1)).dropWhile isJsWs with
    | c :: r =>
      if numSepCh c then
        (parseNumTail (r.dropWhile isJsWs)).map (fun num => (label, num))
      else none
    | [] => none)

/-- Greedy `\s*` before the lazy label: longest whitespace run first. -/
def tryWsThenLabel (s : Str) : Option (Str × Str) :=
  let w := (s.takeWhile isJsWs).length
  ((List.range (w + 1)).reverse).findSome? (fun j => tryLabelSplits (s.drop j))

/-- Full-line matcher for the numeric-data regex of `extractNumericalData`
(line 308), `^[\-\*]?\s*(.+?)[\s]*[:=\-–—]\s*([\d,]+\.?\d*)\s*(unit)?$`:
returns the raw label and number captures. -/
def numRegexMatch (l : Str) : Option (Str × Str) :=
  match l with
  | c :: rest =>
    if c = '-' || c = '*' then
      match tryWsThenLabel rest with
      | some x => some x
      | none => tryWsThenLabel l
    else tryWsThenLabel l
  | [] => none

/-- `NoteAnalyzer.extractNumericalData` (lines 302..319). -/
def extractNumericalData (content : Str) : List NumDatum :=
  (linesOf content).filterMap (fun l =>
    match numRegexMatch l with
    | some (labelRaw, numStr) =>
      let label := trimStr labelRaw
      (match decToQ (numStr.filter (· ≠ ',')) with
       | some v =>
         if 0 < label.length ∧ label.length < 50 then some ⟨label, v⟩ else none
       | none => none)
    | none => none)

end NoteAnalyzer

namespace NoteAnalyzer

/-- Scanner for `String.prototype.split(/[.!?]\s+/)`: the flag records that
the matched separator's whitespace run is being consumed. -/
def sentGo : Bool → Str → Str → List Str
  | _, acc, [] => [acc.reverse]
  | skip, acc, c :: rest =>
    if skip && isJsWs c then sentGo true acc rest
    else
      match rest with
      | w :: rest2 =>
        if (c = '.' || c = '!' || c = '?') && isJsWs w then
          acc.reverse :: sentGo true [] rest2
        else sentGo false (c :: acc) (w :: rest2)
      | [] => sentGo false (c :: acc) []

/-- Model of `s.split(/[.!?]\s+/)`. -/
def splitSentences (s : Str) : List Str := sentGo false [] s

/-- `NoteAnalyzer.extractBulletPoints` (lines 393..411). -/
def extractBulletPoints (content : Str) : List Str :=
  let bullets := (linesOf content).filterMap (fun l =>
    match matchUl l with
    | some cap => some (trimStr cap)
    | none => (matchOl l).map trimStr)
  if bullets.isEmpty then
    (((splitSentences content).filter
        (fun s => decide (10 < (trimStr s).length) && decide ((trimStr s).length < 120))).take 4).map
      trimStr
  else bullets

/-- `NoteAnalyzer.generateSpeakerNotes` (lines 413..417). -/
def generateSpeakerNotes (content : Str) : Str :=
  let cleaned := trimStr (joinWith ['\n'] ((linesOf content).map (fun l =>
    if (matchUl l).isSome then [] else if (matchOl l).isSome then [] else l)))
  let sentences := (splitSentences cleaned).filter (fun s => decide (10 < (trimStr s).length))
  trimStr (joinWith ". ".toList (sentences.take 2))

/-- Slide layouts of `SlideProposal['layout']`. -/
inductive Layout
  | title | title_body | two_column | image_text | blank
deriving DecidableEq, Repr

/-- Slide proposal of `analyzeSlides`. -/
structure SlideProposal where
  title : Str
  bulletPoints : List Str
  layout : Layout
  speakerNotes : Str
deriving DecidableEq, Repr

/-- Themes of `SlidesAnalysis['theme']`. -/
inductive Theme
  | professional | academic | creative | minimal
deriving DecidableEq, Repr

/-- Result of `analyzeSlides`. -/
structure SlidesAnalysis where
  suggestedTitle : Str
  slides : List SlideProposal
  estimatedDuration : Str
  theme : Theme
deriving DecidableEq, Repr

/-- Keywords of the academic-theme check (line 351). -/
def academicWords : List Str :=
  ["abstract".toList, "introduction".toList, "methodology".toList,
   "results".toList, "conclusion".toList, "references".toList]

/-- `NoteAnalyzer.analyzeSlides` (lines 325..364). -/
def analyzeSlides (content title : Str) : SlidesAnalysis :=
  let sections := splitIntoSections content
  let slides := (⟨title, [], Layout.title, "Introduction".toList⟩ : SlideProposal) ::
    sections.map (fun sec =>
      let bullets := extractBulletPoints sec.content
      ⟨sec.heading, bullets.take 6,
       (if !bullets.isEmpty then Layout.title_body else Layout.title),
       generateSpeakerNotes sec.content⟩)
  let theme := if lineStartsAnyCI academicWords content then Theme.academic else Theme.professional
  let minutes := max 1 ((3 * slides.length + 1) / 2)
  ⟨title, slides, '~' :: natStr minutes ++ " min".toList, theme⟩

end NoteAnalyzer

namespace NoteAnalyzer

/-- Question types of `DetectedQuestion['type']`. -/
inductive QType
  | multiple_choice | checkbox | short_answer | paragraph | scale | dropdown
deriving DecidableEq, Repr

/-- Detected question of `detectQuestions`; `points` is never set by the
analyzer. -/
structure DetectedQuestion where
  text : Str
  type : QType
  options : List Str
  required : Bool
  correctAnswer : Option Str
  points : Option Nat
deriving DecidableEq, Repr

/-- Tail of a `\s*(.+)` regex suffix (no end anchor): the capture after the
greedy whitespace run, backtracking to the last character when the whole
remainder is whitespace. -/
def wsStarCapture (rest : Str) : Option Str :=
  match rest.dropWhile isJsWs with
  | [] => if rest.isEmpty then none else some [rest.getLastD ' ']
  | r :: rs => some (r :: rs)

/-- Matcher for `/^[a-eA-E][.)]\s*(.+)/` of `collectOptions` (line 537). -/
def matchLetterOpt (t : Str) : Option Str :=
  match t with
  | c :: p :: rest =>
    if (('a' ≤ c && c ≤ 'e') || ('A' ≤ c && c ≤ 'E')) && (p = '.' || p = ')') then
      wsStarCapture rest
    else none
  | _ => none

/-- Matcher for `/^[\-\*]\s*\[[ xX]?\]\s*(.+)/` of `collectOptions` (line 539). -/
def matchCheckOpt (t : Str) : Option Str :=
  match t with
  | c :: rest =>
    if c = '-' || c = '*' then
      match rest.dropWhile isJsWs with
      | '[' :: r2 =>
        (match r2 with
         | m :: ']' :: r3 =>
           if m = ' ' || m = 'x' || m = 'X' then wsStarCapture r3
           else if m = ']' then wsStarCapture (']' :: r3)
           else none
         | ']' :: r3 => wsStarCapture r3
         | _ => none)
      | _ => none
    else none
  | [] => none

/-- Loop of `NoteAnalyzer.collectOptions` (lines 532..560) over the
(at most 15-line) window. -/
def collectGo : List Str → List Str → List Str
  | [], acc => acc
  | l :: rest, acc =>
    let t := trimStr l
    match matchLetterOpt t with
    | some cap => collectGo rest (acc ++ [trimStr cap])
    | none =>
      match matchCheckOpt t with
      | some cap => collectGo rest (acc ++ [trimStr cap])
      | none =>
        match matchUl t with
        | some cap =>
          if acc.length < 10 then
            (let txt := trimStr cap
             if txt.length < 80 then collectGo rest (acc ++ [txt]) else collectGo rest acc)
          else collectGo rest acc
        | none =>
          if t.isEmpty && !acc.isEmpty then acc
          else if !(t.head? == some '-') && !(t.head? == some '*') && !t.isEmpty && !acc.isEmpty then acc
          else collectGo rest acc

/-- `NoteAnalyzer.collectOptions` (lines 532..560). -/
def collectOptions (lines : List Str) (start : Nat) : List Str :=
  collectGo ((lines.drop start).take 15) []

/-- Remainder after the first case-insensitive occurrence of `pat`. -/
def afterFirstCi (pat : Str) : Str → Option Str
  | [] => none
  | c :: rest =>
    if ciStartsWith pat (c :: rest) then some ((c :: rest).drop pat.length)
    else afterFirstCi pat rest

/-- Fuel-driven model of `line.replace(/[✓✅]|(correct|정답)/gi, '')`
(line 571). -/
def removeCorrectMarksAux : Nat → Str → Str
  | 0, s => s
  | _ + 1, [] => []
  | fuel + 1, c :: rest =>
    if c = '✓' || c = '✅' then removeCorrectMarksAux fuel rest
    else if ciStartsWith "correct".toList (c :: rest) then removeCorrectMarksAux fuel (rest.drop 6)
    else if seqStartsWith "정답".toList (c :: rest) then removeCorrectMarksAux fuel (rest.drop 1)
    else c :: removeCorrectMarksAux fuel rest

/-- Model of `line.replace(/[✓✅]|(correct|정답)/gi, '')`. -/
def removeCorrectMarks (s : Str) : Str := removeCorrectMarksAux s.length s

/-- Leading-marker strip `.replace(/^[\-\*a-eA-E.)\s]+/, '')` (line 571). -/
def stripAnswerLead (s : Str) : Str :=
  s.dropWhile (fun c =>
    c = '-' || c = '*' || ('a' ≤ c && c ≤ 'e') || ('A' ≤ c && c ≤ 'E') ||
    c = '.' || c = ')' || isJsWs c)

/-- Loop of `NoteAnalyzer.detectCorrectOption` (lines 562..576) over the
window; `none` models the `null` returns. -/
def dcoGo : List Str → Option Str
  | [] => none
  | l :: rest =>
    let t := trimStr l
    if ciContains "[x]".toList t then
      match afterFirstCi "[x]".toList t with
      | some rem =>
        (match rem.dropWhile isJsWs with
         | [] => if rem.isEmpty then none else some (trimStr [rem.getLastD ' '])
         | r :: rs => some (trimStr (r :: rs)))
      | none => none
    else if ciContains "✓".toList t || ciContains "✅".toList t ||
            ciContains "correct".toList t || ciContains "정답".toList t then
      (let cleaned := trimStr (stripAnswerLead (removeCorrectMarks t))
       if cleaned.isEmpty then none else some cleaned)
    else dcoGo rest

/-- `NoteAnalyzer.detectCorrectOption` (lines 562..576). -/
def detectCorrectOption (lines : List Str) (start : Nat) : Option Str :=
  dcoGo ((lines.drop start).take 15)

/-- Leading-marker strip `line.replace(/^[\-\*\d.#]+\s*/, '')` of the question
passes (lines 467, 501, 511, 512). -/
def stripListMarker (l : Str) : Str :=
  match l with
  | c :: _ =>
    if c = '-' || c = '*' || c = '.' || c = '#' || isDigitCh c then
      (l.dropWhile (fun c => c = '-' || c = '*' || c = '.' || c = '#' || isDigitCh c)).dropWhile isJsWs
    else l
  | [] => l

/-- Suffix `[:.)]\s*(.+)` of the question-prefix regex. -/
def qPrefixTail (rest : Str) : Option Str :=
  match rest with
  | c :: r => if c = ':' || c = '.' || c = ')' then wsStarCapture r else none
  | [] => none

/-- Matcher for `/^(?:Q\d*|Question\s*\d*|질문\s*\d*)[:.)]\s*(.+)/i`
(line 486), returning the raw capture. -/
def matchQPrefix (l : Str) : Option Str :=
  match
    (match l with
     | c :: rest =>
       if c = 'Q' || c = 'q' then qPrefixTail (rest.dropWhile isDigitCh) else none
     | [] => none)
  with
  | some cap => some cap
  | none =>
    match
      (if ciStartsWith "question".toList l then
         qPrefixTail (((l.drop 8).dropWhile isJsWs).dropWhile isDigitCh)
       else none)
    with
    | some cap => some cap
    | none =>
      if seqStartsWith "질문".toList l then
        qPrefixTail (((l.drop 2).dropWhile isJsWs).dropWhile isDigitCh)
      else none

/-- Pass 1 of `detectQuestions` (lines 465..483): lines ending in `'?'`. -/
def questionsPass1 (lines : List Str) (i : Nat) : List DetectedQuestion :=
  let line := trimStr (lines.getD i [])
  if line.getLast? == some '?' && decide (5 < line.length) then
    let questionText := trimStr (stripListMarker line)
    let options := collectOptions lines (i + 1)
    let correctAnswer :=
      match detectCorrectOption lines (i + 1) with
      | some s => if s.isEmpty then none else some s
      | none => none
    let type :=
      if 2 ≤ options.length then
        (if options.length ≤ 5 then QType.multiple_choice else QType.dropdown)
      else QType.short_answer
    [⟨questionText, type, options, true, correctAnswer, none⟩]
  else []

/-- Pass 2 of `detectQuestions` (lines 485..497): `Q:`-prefixed lines that do
not end in `'?'`. -/
def questionsPass2 (lines : List Str) (i : Nat) : List DetectedQuestion :=
  let line := trimStr (lines.getD i [])
  match matchQPrefix line with
  | some cap =>
    if !(line.getLast? == some '?') then
      let options := collectOptions lines (i + 1)
      [⟨trimStr cap,
        (if 2 ≤ options.length then QType.multiple_choice else QType.short_answer),
        options, true, none, none⟩]
    else []
  | none => []

/-- Pass 3 of `detectQuestions` (lines 499..508): rating/scale lines. -/
def questionsPass3 (lines : List Str) (i : Nat) : List DetectedQuestion :=
  let line := trimStr (lines.getD i [])
  if (ciContains "rate".toList line || ciContains "scale".toList line ||
      ciContains "평가".toList line || ciContains "척도".toList line) &&
     line.any isDigitCh then
    [⟨trimStr (stripListMarker line), QType.scale, [], true, none, none⟩]
  else []

/-- Keywords of pass 4 (line 511). -/
def describeWords : List Str :=
  ["describe".toList, "explain".toList, "elaborate".toList, "서술".toList, "설명".toList]

/-- Pass 4 of `detectQuestions` (lines 510..519): describe/explain lines. -/
def questionsPass4 (lines : List Str) (i : Nat) : List DetectedQuestion :=
  let line := trimStr (lines.getD i [])
  if describeWords.any (fun w => ciStartsWith w (stripListMarker line)) then
    [⟨trimStr (stripListMarker line), QType.paragraph, [], false, none, none⟩]
  else []

/-- Questions produced for line `i` by the four passes, in source order. -/
def questionsAt (lines : List Str) (i : Nat) : List DetectedQuestion :=
  questionsPass1 lines i ++ questionsPass2 lines i ++ questionsPass3 lines i ++ questionsPass4 lines i

/-- Pre-deduplication question list of `detectQuestions` (lines 457..520). -/
def allDetected (content : Str) : List DetectedQuestion :=
  (List.range (linesOf content).length).flatMap (questionsAt (linesOf content))

/-- Deduplication filter of `detectQuestions` (lines 522..529): keep the first
occurrence per lower-cased text key (`seen` is the `Set` of kept keys). -/
def dedupGo (seen : List Str) : List DetectedQuestion → List DetectedQuestion
  | [] => []
  | q :: rest =>
    if lowerStr q.text ∈ seen then dedupGo seen rest
    else q :: dedupGo (lowerStr q.text :: seen) rest

/-- `NoteAnalyzer.detectQuestions` (lines 457..530). -/
def detectQuestions (content : Str) : List DetectedQuestion :=
  dedupGo [] (allDetected content)

end NoteAnalyzer

namespace NoteAnalyzer

/-- Form types of `FormsAnalysis['formType']`. -/
inductive FormType
  | quiz | survey | feedback | registration | general
deriving DecidableEq, Repr

/-- Result of `analyzeForms`. -/
structure FormsAnalysis where
  formType : FormType
  suggestedTitle : Str
  description : Str
  questions : List DetectedQuestion
  hasAnswerKey : Bool
  isQuizLikely : Bool
  isSurveyLikely : Bool
deriving DecidableEq, Repr

/-- Anchored test of `answer\s*key|answers?:|정답|해답` at one position. -/
def answerKeyAt (s : Str) : Bool :=
  (ciStartsWith "answer".toList s &&
    (ciStartsWith "key".toList ((s.drop 6).dropWhile isJsWs) ||
     (match s.drop 6 with
      | ':' :: _ => true
      | c :: ':' :: _ => c = 's' || c = 'S'
      | _ => false))) ||
  seqStartsWith "정답".toList s || seqStartsWith "해답".toList s

/-- Scan of `/answer\s*key|answers?:|정답|해답/i.test(content)`. -/
def scanAnswerKey : Str → Bool
  | [] => false
  | c :: rest => answerKeyAt (c :: rest) || scanAnswerKey rest

/-- `NoteAnalyzer.detectAnswerKey` (lines 578..582). -/
def detectAnswerKey (content : Str) : Bool :=
  scanAnswerKey content || ciContains "[x]".toList content ||
  containsSeq "✓".toList content || containsSeq "✅".toList content

/-- Anchored test of `sign.?up` (case-insensitive) at one position. -/
def signupAt (s : Str) : Bool :=
  ciStartsWith "sign".toList s &&
    (ciStartsWith "up".toList (s.drop 4) ||
     (match s.drop 4 with
      | c :: r => !(c = '\n') && ciStartsWith "up".toList r
      | [] => false))

/-- Scan of the `sign.?up` alternative of the registration test (line 438). -/
def scanSignup : Str → Bool
  | [] => false
  | c :: rest => signupAt (c :: rest) || scanSignup rest

/-- Registration keyword test `/register|sign.?up|등록|신청/i.test(content)`
(line 438). -/
def registrationTest (content : Str) : Bool :=
  ciContains "register".toList content || scanSignup content ||
  containsSeq "등록".toList content || containsSeq "신청".toList content

/-- Quiz keywords (line 431). -/
def quizWords : List Str :=
  ["quiz".toList, "test".toList, "exam".toList, "시험".toList, "퀴즈".toList]

/-- Survey keywords (line 432). -/
def surveyWords : List Str :=
  ["survey".toList, "feedback".toList, "opinion".toList, "rating".toList,
   "satisfaction".toList, "설문".toList, "조사".toList, "의견".toList]

/-- `NoteAnalyzer.analyzeForms` (lines 423..455). -/
def analyzeForms (content title : Str) : FormsAnalysis :=
  let questions := detectQuestions content
  let hasKey := detectAnswerKey content
  let isQuizLikely := hasKey || questions.any (fun q => q.correctAnswer.isSome) ||
    quizWords.any (fun w => ciContains w content)
  let isSurveyLikely := surveyWords.any (fun w => ciContains w content) ||
    questions.any (fun q => q.type == QType.scale)
  let formType :=
    if isQuizLikely then FormType.quiz
    else if isSurveyLikely then FormType.survey
    else if ciContains "feedback".toList content || ciContains "피드백".toList content then
      FormType.feedback
    else if registrationTest content then FormType.registration
    else FormType.general
  let description :=
    if formType = FormType.quiz then
      "Quiz with ".toList ++ natStr questions.length ++
        " questions generated from note content".toList
    else if formType = FormType.survey then
      "Survey with ".toList ++ natStr questions.length ++
        " questions to gather responses".toList
    else
      "Form with ".toList ++ natStr questions.length ++
        " questions based on note content".toList
  ⟨formType, title, description, questions, hasKey, isQuizLikely, isSurveyLikely⟩

/-- Quote strip `.replace(/^["']|["']$/g, '')` of `extractTitle` (line 121). -/
def stripQuotes (s : Str) : Str :=
  let s1 :=
    match s with
    | c :: r => if c = '"' || c.val = 39 then r else s
    | [] => s
  match s1.getLast? with
  | some c => if c = '"' || c.val = 39 then s1.dropLast else s1
  | none => s1

/-- Suffix strip `fileName.replace(/\.md$/, '')` (line 123). -/
def stripMdSuffix (f : Str) : Str :=
  if seqStartsWith "dm.".toList f.reverse then f.dropLast.dropLast.dropLast else f

/-- `NoteAnalyzer.extractTitle` (lines 116..124). -/
def extractTitle (content fileName : Str) : Str :=
  match
    (linesOf content).findSome? (fun l =>
      match l with
      | '#' :: rest => wsPlusCapture rest
      | _ => none)
  with
  | some cap => trimStr cap
  | none =>
    match
      (linesOf content).findSome? (fun l =>
        if seqStartsWith "title:".toList l then wsStarCapture (l.drop 6) else none)
    with
    | some cap => stripQuotes (trimStr cap)
    | none => stripMdSuffix fileName

/-- Word-run counter: `split(/\s+/).filter(w => w.length > 0).length`. -/
def wrGo : Bool → Str → Nat
  | _, [] => 0
  | inWord, c :: rest =>
    if isJsWs c then wrGo false rest
    else (if inWord then 0 else 1) + wrGo true rest

/-- `NoteAnalyzer.countWords` (lines 126..130). -/
def countWords (content : Str) : Nat := wrGo false (stripFrontmatter content)

/-- Closing scan of the lazy `\(.*?\)` part of the image/link regexes:
a `')'` must appear before any newline. -/
def parenClose : Str → Bool
  | [] => false
  | ')' :: _ => true
  | '\n' :: _ => false
  | c :: rest => !(c = '\n') && parenClose rest

/-- Middle scan of `\]\(.*?\)` after a `'['`: a `"]("` must appear before any
newline, followed by a closing scan; on failure the search continues. -/
def bracketMid : Str → Bool
  | [] => false
  | '\n' :: _ => false
  | ']' :: '(' :: rest => parenClose rest || bracketMid ('(' :: rest)
  | _ :: rest => bracketMid rest

/-- Test `/!\[.*?\]\(.*?\)/.test(content)` of `analyzeDocs` (line 153). -/
def hasImageSig : Str → Bool
  | [] => false
  | '!' :: '[' :: rest => bracketMid rest || hasImageSig ('[' :: rest)
  | _ :: rest => hasImageSig rest

/-- Test `/\[.*?\]\(.*?\)/.test(content)` of `analyzeDocs` (line 154). -/
def hasLinkSig : Str → Bool
  | [] => false
  | '[' :: rest => bracketMid rest || hasLinkSig rest
  | _ :: rest => hasLinkSig rest

/-- Test `/\|.*\|.*\|/.test(content)` of `analyzeDocs` (line 155): some line
carries at least three pipes. -/
def hasTablesSig (content : Str) : Bool :=
  (linesOf content).any (fun l => 3 ≤ (l.filter (· = '|')).length)

/-- Result of `analyzeDocs`. -/
structure DocsAnalysis where
  suggestedTitle : Str
  headings : List (Nat × Str)
  paragraphCount : Nat
  hasImages : Bool
  hasLinks : Bool
  hasTables : Bool
  estimatedPages : Nat
  contentType : ContentType
  summary : Str
deriving DecidableEq, Repr

/-- `NoteAnalyzer.generateDocsSummary` (lines 181..189). -/
def generateDocsSummary (headings : List (Nat × Str)) (paragraphCount wordCount : Nat) : Str :=
  let pages := max 1 ((wordCount + 249) / 250)
  let parts :=
    [natStr wordCount ++ " words, ~".toList ++ natStr pages ++ " pages".toList] ++
    (if 0 < headings.length then [natStr headings.length ++ " sections".toList] else []) ++
    [natStr paragraphCount ++ " paragraphs".toList]
  joinWith " | ".toList parts

/-- `NoteAnalyzer.analyzeDocs` (lines 136..160). -/
def analyzeDocs (content title : Str) : DocsAnalysis :=
  let headings := extractHeadings content
  let paragraphCount := countParagraphs content
  let wordCount := countWords content
  ⟨title, headings, paragraphCount, hasImageSig content, hasLinkSig content,
   hasTablesSig content, max 1 ((wordCount + 249) / 250), contentTypeOf content,
   generateDocsSummary headings paragraphCount wordCount⟩

/-- Chart types of `SheetsAnalysis['suggestedChartType']`. -/
inductive ChartType
  | bar | line | pie | table | none
deriving DecidableEq, Repr

/-- Result of `analyzeSheets`. -/
structure SheetsAnalysis where
  tables : List ExtractedTable
  lists : List ExtractedList
  numericalData : List NumDatum
  suggestedChartType : ChartType
  hasTabulableContent : Bool
deriving DecidableEq, Repr

/-- `NoteAnalyzer.analyzeSheets` (lines 195..216). -/
def analyzeSheets (content : Str) : SheetsAnalysis :=
  let tables := extractTables content
  let lists := extractLists content
  let numericalData := extractNumericalData content
  let ct1 :=
    if 2 ≤ numericalData.length then
      (if numericalData.length ≤ 6 then ChartType.pie else ChartType.bar)
    else ChartType.none
  let ct2 :=
    match tables with
    | t :: _ => if 5 < t.rows.length then ChartType.bar else ct1
    | [] => ct1
  ⟨tables, lists, numericalData, ct2,
   !tables.isEmpty || !lists.isEmpty || !numericalData.isEmpty⟩

/-- Result of `analyze`. -/
structure NoteAnalysis where
  title : Str
  wordCount : Nat
  lineCount : Nat
  docs : DocsAnalysis
  sheets : SheetsAnalysis
  slides : SlidesAnalysis
  forms : FormsAnalysis
deriving DecidableEq, Repr

/-- `NoteAnalyzer.analyze` (lines 99..112), the main entry point. -/
def analyze (content fileName : Str) : NoteAnalysis :=
  let title := extractTitle content fileName
  ⟨title, countWords content, (linesOf content).length,
   analyzeDocs content title, analyzeSheets content,
   analyzeSlides content title, analyzeForms content title⟩

end NoteAnalyzer

namespace SheetsConverter

/-- Pipe escaping `cell.replace(/\|/g, '\\|')` (part_001, lines 64, 121). -/
def escapeCell : Str → Str
  | [] => []
  | c :: rest => if c = '|' then '\\' :: '|' :: escapeCell rest else c :: escapeCell rest

/-- Pipe unescaping `cell.replace(/\\\|/g, '|')` (part_001, lines 159, 205). -/
def unescapeCell : Str → Str
  | [] => []
  | [a] => [a]
  | a :: b :: t =>
    if a = '\\' && b = '|' then '|' :: unescapeCell t
    else a :: unescapeCell (b :: t)

/-- Rendered table line `` `| ${cells.join(' | ')} |` `` from already-escaped
cell strings. -/
def mdRow (cells : List Str) : Str :=
  "| ".toList ++ joinWith " | ".toList cells ++ " |".toList

/-- Column count `Math.max(...data.map(row => row.length))` of
`arrayToMarkdownTable` (line 113); the caller guarantees nonempty data. -/
def maxColsOf (data : List (List Str)) : Nat :=
  data.foldr (fun r m => max r.length m) 0

/-- Row rendering of `arrayToMarkdownTable` (lines 115..124): a ragged row is
padded with `''` up to `maxCols`, and every cell is pipe-escaped. -/
def rowLine (maxCols : Nat) (r : List Str) : Str :=
  mdRow ((List.range maxCols).map (fun j => escapeCell (r.getD j [])))

/-- Separator line `` `| ${Array(maxCols).fill('---').join(' | ')} |` ``
(line 127). -/
def sepRowLine (maxCols : Nat) : Str :=
  mdRow (List.replicate maxCols "---".toList)

/-- Line list built by `SheetsConverter.arrayToMarkdownTable` (lines 109..132):
first row, then the separator, then the remaining rows. -/
def arrayToMarkdownTableLines (data : List (List Str)) : List Str :=
  match data with
  | [] => []
  | r0 :: rest =>
    let mc := maxColsOf data
    rowLine mc r0 :: sepRowLine mc :: rest.map (rowLine mc)

/-- `SheetsConverter.arrayToMarkdownTable` (lines 109..132). -/
def arrayToMarkdownTable (data : List (List Str)) : Str :=
  match data with
  | [] => []
  | _ => joinWith ['\n'] (arrayToMarkdownTableLines data)

/-- Row parsing of `SheetsConverter.markdownTableToArray` (lines 188..208):
`none` for non-table and separator lines; cells are trimmed and unescaped. -/
def parseRowCells (l : Str) : Option (List Str) :=
  let t := trimStr l
  if t.head? == some '|' && t.getLast? == some '|' then
    if NoteAnalyzer.isSepLine t then none
    else some ((splitOnChar '|' ((t.drop 1).dropLast)).map (fun c => unescapeCell (trimStr c)))
  else none

/-- `SheetsConverter.markdownTableToArray` (lines 184..211). -/
def markdownTableToArray (s : Str) : List (List Str) :=
  (((splitOnChar '\n' s).filter (fun l => !(trimStr l).isEmpty)).filterMap parseRowCells)

/-- Extended value of a sheet cell (`ExtendedValue` of the Sheets API model);
`numberValue` carries the already-rendered `toString()` image of the
JavaScript number. -/
structure ExtendedValue where
  stringValue : Option Str
  numberValue : Option Str
  boolValue : Option Bool
deriving DecidableEq, Repr

/-- Cell of a sheet (`CellData` of SheetsService). -/
structure CellData where
  formattedValue : Option Str
  effectiveValue : Option ExtendedValue
  userEnteredValue : Option ExtendedValue
deriving DecidableEq, Repr

/-- Row of sheet data, `{ values: CellData[] }` with the defensive
`row.values` checks of `rowDataToMarkdownTable`. -/
structure RowData where
  values : Option (List CellData)
deriving DecidableEq, Repr

/-- Fallback of `getCellValue` (lines 90..103): `effectiveValue` preferred
over `userEnteredValue`, then string, number and boolean variants in order. -/
def getCellValueFallback (c : CellData) : Str :=
  match c.effectiveValue.orElse (fun _ => c.userEnteredValue) with
  | none => []
  | some v =>
    match v.stringValue with
    | some s => s
    | none =>
      match v.numberValue with
      | some n => n
      | none =>
        match v.boolValue with
        | some b => if b then "TRUE".toList else "FALSE".toList
        | none => []

/-- `SheetsConverter.getCellValue` (part_001, lines 81..104); the
`if (cell.formattedValue)` test is JavaScript truthiness, so an empty
formatted value falls through. -/
def getCellValue (cell : Option CellData) : Str :=
  match cell with
  | none => []
  | some c =>
    match c.formattedValue with
    | some fv => if !fv.isEmpty then fv else getCellValueFallback c
    | none => getCellValueFallback c

/-- Column count of `rowDataToMarkdownTable` (lines 46..51). -/
def maxColsRD (rowData : List RowData) : Nat :=
  rowData.foldl (fun m row =>
    match row.values with
    | some vs => max m vs.length
    | none => m) 0

/-- Row rendering of `rowDataToMarkdownTable` (lines 56..67). -/
def rowLineRD (maxCols : Nat) (row : RowData) : Str :=
  mdRow ((List.range maxCols).map (fun j =>
    escapeCell (getCellValue (row.values.bind (fun vs => vs.get? j)))))

/-- `SheetsConverter.rowDataToMarkdownTable` (lines 42..76), returning the
line list the source returns. -/
def rowDataToMarkdownTable (rowData : List RowData) : List Str :=
  if maxColsRD rowData = 0 then []
  else
    match rowData with
    | [] => []
    | r0 :: rest =>
      rowLineRD (maxColsRD rowData) r0 :: sepRowLine (maxColsRD rowData) ::
        rest.map (rowLineRD (maxColsRD rowData))

end SheetsConverter

namespace DocsConverter

/-- Batch-update request of `markdownToDocsRequests`; text-style range indices
are integers because they add a JavaScript `indexOf` result (`-1` possible). -/
inductive DocsRequest where
  | insertText (index : Nat) (text : Str)
  | updateParagraphStyle (startIndex endIndex : Nat) (namedStyleType : Str)
  | updateTextStyle (startIndex endIndex : Int) (field : Str)
deriving DecidableEq, Repr

/-- Result of `DocsConverter.parseLine` (lines 190..239). -/
structure ParsedLine where
  text : Str
  style : Option Str
  isList : Bool
  listType : Option Str
deriving DecidableEq, Repr

/-- Heading style names `HEADING_1` .. `HEADING_6` (lines 195..202). -/
def headingStyleName (lvl : Nat) : Str := "HEADING_".toList ++ natStr lvl

/-- Bullet prefix `'â€¢ '` prepended to unordered items (line 215): the
four-character literal of the source. -/
def bulletPrefix : Str := [Char.ofNat 0xE2, Char.ofNat 0x20AC, Char.ofNat 0xA2, ' ']

/-- `DocsConverter.parseLine` (lines 190..239). -/
def parseLine (line : Str) : ParsedLine :=
  match matchHashHeading 6 line with
  | some (lvl, cap) => ⟨cap, some (headingStyleName lvl), false, none⟩
  | none =>
    match matchUl line with
    | some cap => ⟨bulletPrefix ++ cap, none, true, some "BULLET".toList⟩
    | none =>
      match matchOl line with
      | some cap => ⟨cap, none, true, some "NUMBER".toList⟩
      | none => ⟨line, none, false, none⟩

/-- Model of `String.prototype.indexOf` for a literal pattern (`-1` absent). -/
def jsIndexOfAux (pat : Str) : Int → Str → Int
  | i, [] => if seqStartsWith pat [] then i else -1
  | i, c :: rest => if seqStartsWith pat (c :: rest) then i else jsIndexOfAux pat (i + 1) rest

/-- First index of `pat` in `s`, or `-1`. -/
def jsIndexOf (pat s : Str) : Int := jsIndexOfAux pat 0 s

/-- Fuel-driven scanner for the global bold regex
`/\*\*([^*]+)\*\*|__([^_]+)__/g`: yields `(match, innerText)` pairs in order. -/
def boldScanAux : Nat → Str → List (Str × Str)
  | 0, _ => []
  | fuel + 1, s =>
    match s with
    | '*' :: '*' :: rest =>
      let inner := rest.takeWhile (· ≠ '*')
      (match rest.drop inner.length with
       | '*' :: '*' :: rest2 =>
         if !inner.isEmpty then
           ("**".toList ++ inner ++ "**".toList, inner) :: boldScanAux fuel rest2
         else boldScanAux fuel ('*' :: rest)
       | _ => boldScanAux fuel ('*' :: rest))
    | '_' :: '_' :: rest =>
      let inner := rest.takeWhile (· ≠ '_')
      (match rest.drop inner.length with
       | '_' :: '_' :: rest2 =>
         if !inner.isEmpty then
           ("__".toList ++ inner ++ "__".toList, inner) :: boldScanAux fuel rest2
         else boldScanAux fuel ('_' :: rest)
       | _ => boldScanAux fuel ('_' :: rest))
    | _ :: rest => boldScanAux fuel rest
    | [] => []

/-- Matches of the bold regex (lines 245..247). -/
def boldScan (s : Str) : List (Str × Str) := boldScanAux (s.length + 1) s

/-- Fuel-driven scanner for the global italic regex
`/(?<!\*)\*([^*]+)\*(?!\*)|(?<!_)_([^_]+)_(?!_)/g`, tracking the previous
character for the look-behind. -/
def italicScanAux : Nat → Option Char → Str → List (Str × Str)
  | 0, _, _ => []
  | fuel + 1, prev, s =>
    match s with
    | '*' :: rest =>
      if prev == some '*' then italicScanAux fuel (some '*') rest
      else
        let inner := rest.takeWhile (· ≠ '*')
        (match rest.drop inner.length with
         | '*' :: rest2 =>
           if !inner.isEmpty && !(rest2.head? == some '*') then
             ('*' :: inner ++ ['*'], inner) :: italicScanAux fuel (some '*') rest2
           else italicScanAux fuel (some '*') rest
         | _ => italicScanAux fuel (some '*') rest)
    | '_' :: rest =>
      if prev == some '_' then italicScanAux fuel (some '_') rest
      else
        let inner := rest.takeWhile (· ≠ '_')
        (match rest.drop inner.length with
         | '_' :: rest2 =>
           if !inner.isEmpty && !(rest2.head? == some '_') then
             ('_' :: inner ++ ['_'], inner) :: italicScanAux fuel (some '_') rest2
           else italicScanAux fuel (some '_') rest
         | _ => italicScanAux fuel (some '_') rest)
    | c :: rest => italicScanAux fuel (some c) rest
    | [] => []

/-- Matches of the italic regex (line 265). -/
def italicScan (s : Str) : List (Str × Str) := italicScanAux (s.length + 1) none s

/-- `DocsConverter.createFormattingRequests` (lines 241..284): bold requests
first, then italic requests; ranges are computed from `text.indexOf(match)`. -/
def createFormattingRequests (text : Str) (startIndex : Nat) : List DocsRequest :=
  ((boldScan text).map (fun m =>
    let tsi := jsIndexOf m.1 text
    DocsRequest.updateTextStyle ((startIndex : Int) + tsi)
      ((startIndex : Int) + tsi + m.2.length + 4) "bold".toList)) ++
  ((italicScan text).map (fun m =>
    let tsi := jsIndexOf m.1 text
    DocsRequest.updateTextStyle ((startIndex : Int) + tsi)
      ((startIndex : Int) + tsi + m.2.length + 2) "italic".toList))

/-- Line loop of `DocsConverter.markdownToDocsRequests` (lines 134..188):
`idx` is the running `insertIndex` cursor. -/
def docsLoop : List Str → Nat → List DocsRequest
  | [], _ => []
  | line :: rest, idx =>
    let p := parseLine line
    if p.text.isEmpty && !p.isList then
      DocsRequest.insertText idx ['\n'] :: docsLoop rest (idx + 1)
    else
      let t := p.text ++ ['\n']
      (DocsRequest.insertText idx t ::
        ((match p.style with
          | some st => [DocsRequest.updateParagraphStyle idx (idx + t.length) st]
          | none => []) ++
         createFormattingRequests p.text idx)) ++ docsLoop rest (idx + t.length)

/-- `DocsConverter.markdownToDocsRequests` (lines 134..188); the cursor starts
at 1 (after the document's initial newline). -/
def markdownToDocsRequests (md : Str) : List DocsRequest := docsLoop (linesOf md) 1

/-- Insert-text requests of a request list, in order, as (index, text) pairs. -/
def insertsOf (reqs : List DocsRequest) : List (Nat × Str) :=
  reqs.filterMap (fun r =>
    match r with
    | DocsRequest.insertText i t => some (i, t)
    | _ => none)

end DocsConverter

namespace SlidesConverter

/-- Run style of a slides text run (`style.bold/italic`, absent = false). -/
structure RunStyle where
  bold : Bool
  italic : Bool
deriving DecidableEq, Repr

/-- Text run of a slides text element. -/
structure TextRun where
  content : Str
  style : Option RunStyle
deriving DecidableEq, Repr

/-- Text element (`TextElement` of SlidesService). -/
structure TxtElement where
  textRun : Option TextRun
deriving DecidableEq, Repr

/-- Text content of a shape or table cell. -/
structure TextContent where
  textElements : Option (List TxtElement)
deriving DecidableEq, Repr

/-- Shape with optional text. -/
structure Shape where
  text : Option TextContent
deriving DecidableEq, Repr

/-- Image element with its URL fields. -/
structure SlImage where
  contentUrl : Option Str
  sourceUrl : Option Str
deriving DecidableEq, Repr

/-- Table cell of a slide table. -/
structure SlTableCell where
  text : Option TextContent
deriving DecidableEq, Repr

/-- Table row of a slide table. -/
structure SlTableRow where
  tableCells : List SlTableCell
deriving DecidableEq, Repr

/-- Slide table. -/
structure SlTable where
  tableRows : List SlTableRow
deriving DecidableEq, Repr

/-- Page element of a slide: shape, table and image parts are all checked
independently by `extractSlideContent`. -/
structure PageElement where
  shape : Option Shape
  table : Option SlTable
  image : Option SlImage
deriving DecidableEq, Repr

/-- Slide of a presentation. -/
structure Slide where
  pageElements : Option (List PageElement)
deriving DecidableEq, Repr

/-- Google Slides presentation model. -/
structure GooglePresentation where
  title : Str
  slides : List Slide
deriving DecidableEq, Repr

/-- Per-run text of `extractTextFromContent` (SlidesConverter.ts,
lines 117..133): empty contents are skipped; bold then italic wrapping is
applied sequentially on the trimmed text. -/
def runText (e : TxtElement) : Str :=
  match e.textRun with
  | none => []
  | some tr =>
    if tr.content.isEmpty then []
    else
      match tr.style with
      | none => tr.content
      | some st =>
        let t1 :=
          if st.bold && !(trimStr tr.content).isEmpty then
            "**".toList ++ trimStr tr.content ++ "** ".toList
          else tr.content
        if st.italic && !(trimStr t1).isEmpty then
          '*' :: trimStr t1 ++ "* ".toList
        else t1

/-- `SlidesConverter.extractTextFromContent` (lines 112..137). -/
def extractTextFromContent (tc : TextContent) : Str :=
  match tc.textElements with
  | none => []
  | some els => (els.map runText).flatten

/-- Cell text of `extractTableContent` (lines 149..154). -/
def slCellText (cell : SlTableCell) : Str :=
  match cell.text with
  | none => []
  | some tc => trimStr (extractTextFromContent tc)

/-- Rendered cells of one slide-table row: pipes escaped, newlines replaced by
spaces (line 154). -/
def slRowCells (row : SlTableRow) : List Str :=
  row.tableCells.map (fun cell =>
    (SheetsConverter.escapeCell (slCellText cell)).map (fun c => if c = '\n' then ' ' else c))

/-- `SlidesConverter.extractTableContent` (lines 142..166): pipe rows joined by
newlines, with a separator sized by the first row's cell count. -/
def extractTableContent (tb : SlTable) : Str :=
  match tb.tableRows with
  | [] => []
  | r0 :: rest =>
    joinWith ['\n']
      (SheetsConverter.mdRow (slRowCells r0) ::
       SheetsConverter.sepRowLine (slRowCells r0).length ::
       rest.map (fun r => SheetsConverter.mdRow (slRowCells r)))

/-- Element loop of `extractSlideContent` (lines 71..104): the flag is
`isFirstText`; shape text, table and image parts are handled in order. -/
def extractElemsGo : List PageElement → Bool → Str → List Str → Str × List Str
  | [], _, title, body => (title, body)
  | el :: rest, first, title, body =>
    let fst1 :=
      match el.shape with
      | some sh =>
        (match sh.text with
         | some tc =>
           let t := extractTextFromContent tc
           if first && !(trimStr t).isEmpty then (false, trimStr t, body)
           else if !(trimStr t).isEmpty then
             (first, title, body ++ ((splitOnChar '\n' t).filter (fun l => !(trimStr l).isEmpty)))
           else (first, title, body)
         | none => (first, title, body))
      | none => (first, title, body)
    let body2 :=
      match el.table with
      | some tb =>
        (let md := extractTableContent tb
         if !md.isEmpty then fst1.2.2 ++ [md] else fst1.2.2)
      | none => fst1.2.2
    let body3 :=
      match el.image with
      | some im =>
        (let url :=
          match im.contentUrl with
          | some u => if !u.isEmpty then u else im.sourceUrl.getD []
          | none => im.sourceUrl.getD []
         if !url.isEmpty then body2 ++ ["![Image](".toList ++ url ++ [')']] else body2)
      | none => body2
    extractElemsGo rest fst1.1 fst1.2.1 body3

/-- `SlidesConverter.extractSlideContent` (lines 62..107); the notes component
is never assigned by the source and is always empty. -/
def extractSlideContent (slide : Slide) : Str × List Str × Str :=
  match slide.pageElements with
  | none => ([], [], [])
  | some els =>
    let tb := extractElemsGo els true [] []
    (tb.1, tb.2, [])

/-- Body lines pushed for one slide by `toMarkdown` (lines 31..41): raw table
rows, `- `-prefixed bullets, blank items dropped. -/
def slideBodyLines (body : List Str) : List Str :=
  body.filterMap (fun item =>
    if item.head? == some '|' then some item
    else if !(trimStr item).isEmpty then some ("- ".toList ++ item)
    else none)

/-- Lines pushed for slide `i` of `n` by `toMarkdown` (lines 20..54). -/
def slideBlock (i n : Nat) (slide : Slide) : List Str :=
  let tbn := extractSlideContent slide
  ["## Slide ".toList ++ natStr (i + 1) ++
     (if !tbn.1.isEmpty then ':' :: ' ' :: tbn.1 else [])] ++
  [[]] ++
  (if !tbn.2.1.isEmpty then slideBodyLines tbn.2.1 ++ [[]] else []) ++
  (if !tbn.2.2.isEmpty then ["> **Notes:** ".toList ++ tbn.2.2, []] else []) ++
  (if i < n - 1 then ["---".toList, []] else [])

/-- Indexed loop over the slides of `toMarkdown`. -/
def slidesBlocksGo : List Slide → Nat → Nat → List Str
  | [], _, _ => []
  | s :: rest, i, n => slideBlock i n s ++ slidesBlocksGo rest (i + 1) n

/-- `SlidesConverter.toMarkdown` (lines 7..57). -/
def toMarkdown (p : GooglePresentation) : Str :=
  joinWith ['\n']
    (["# ".toList ++ p.title, [],
      '*' :: natStr p.slides.length ++ " slides*".toList, [],
      "---".toList, []] ++
     slidesBlocksGo p.slides 0 p.slides.length)

/-- Scanner for the `split` on the dash regex (three dashes followed by a
greedy newline run): on each dash triple the current segment is emitted and
the following newline run is consumed (`skip` state). -/
def sdGo : Bool → Str → Str → List Str
  | _, acc, [] => [acc.reverse]
  | true, acc, '\n' :: rest => sdGo true acc rest
  | _, acc, '-' :: '-' :: '-' :: rest => acc.reverse :: sdGo true [] rest
  | _, acc, c :: rest => sdGo false (c :: acc) rest

/-- Model of the `split` on the dash regex (three dashes followed by a
greedy newline run) at line 174. -/
def splitDashes (s : Str) : List Str := sdGo false [] s

/-- Matcher for `/^##\s+Slide\s+\d+:?\s*(.*)$/i` (line 185). -/
def matchSlideHeading (l : Str) : Option Str :=
  match l with
  | '#' :: '#' :: rest =>
    (match rest with
     | c :: _ =>
       if isJsWs c then
         (let r1 := rest.dropWhile isJsWs
          if ciStartsWith "slide".toList r1 then
            match r1.drop 5 with
            | c2 :: _ =>
              if isJsWs c2 then
                (let r2 := (r1.drop 5).dropWhile isJsWs
                 match r2 with
                 | d :: _ =>
                   if isDigitCh d then
                     (let r3 := r2.dropWhile isDigitCh
                      let r4 :=
                        match r3 with
                        | ':' :: r => r
                        | r => r
                      some (r4.dropWhile isJsWs))
                   else none
                 | [] => none)
              else none
            | [] => none
          else none)
       else none
     | [] => none)
  | _ => none

/-- Tail of the per-line loop of `parseMarkdownToSlides` (lines 199..213):
list items, the italic `slide` metadata line, then plain text. -/
def parseSecRest (tb : Str × List Str) (line : Str) : Str × List Str :=
  match matchUl line with
  | some cap => (tb.1, tb.2 ++ [trimStr cap])
  | none =>
    if line.head? == some '*' && line.getLast? == some '*' &&
       containsSeq "slide".toList line then tb
    else if !(trimStr line).isEmpty && !(line.head? == some '>') then
      (tb.1, tb.2 ++ [trimStr line])
    else tb

/-- Per-line step of `parseMarkdownToSlides` (lines 183..214). -/
def parseSecStep (tb : Str × List Str) (line : Str) : Str × List Str :=
  match matchSlideHeading line with
  | some cap => (trimStr cap, tb.2)
  | none =>
    match matchHashHeading 6 line with
    | some (_, cap) =>
      if tb.1.isEmpty then (trimStr cap, tb.2) else parseSecRest tb line
    | none => parseSecRest tb line

/-- Per-section parse of `parseMarkdownToSlides` (lines 176..219). -/
def parseSection (sec : Str) : Option (Str × List Str) :=
  let lines := (splitOnChar '\n' (trimStr sec)).filter (fun l => !(trimStr l).isEmpty)
  if lines.isEmpty then none
  else
    let tb := lines.foldl parseSecStep ([], [])
    if !tb.1.isEmpty || !tb.2.isEmpty then some tb else none

/-- `SlidesConverter.parseMarkdownToSlides` (lines 172..222). -/
def parseMarkdownToSlides (md : Str) : List (Str × List Str) :=
  (splitDashes md).filterMap parseSection

/-- Page element holding one unstyled text run — the building block of the
title-plus-plain-bullets presentations quantified over by the round-trip
statement. -/
def mkTextElement (s : Str) : PageElement :=
  ⟨some ⟨some ⟨some [⟨some ⟨s, none⟩⟩]⟩⟩, none, none⟩

/-- Slide holding a title text box followed by one text box per bullet. -/
def mkSimpleSlide (t : Str) (bullets : List Str) : Slide :=
  ⟨some (mkTextElement t :: bullets.map mkTextElement)⟩

end SlidesConverter

/-- Text usable as a slide title or presentation title in the round-trip
statement: nonempty, trim-fixed, newline-free, and free of dash triples. -/
abbrev goodText (s : Str) : Prop :=
  s ≠ [] ∧ trimStr s = s ∧ '\n' ∉ s ∧ containsSeq "---".toList s = false

/-- Plain bullet text: good text that does not start with a pipe (which the
serializer would emit as a raw table line). -/
abbrev goodBullet (b : Str) : Prop := goodText b ∧ b.head? ≠ some '|'

/-! ### Generic lemmas about the string model -/

theorem dropWhile_eq_self_of_head (p : Char → Bool) (s : Str)
    (h : ∀ c, s.head? = some c → p c = false) : s.dropWhile p = s := by
  cases s with
  | nil => rfl
  | cons c t => simp [List.dropWhile_cons, h c rfl]

theorem trimStr_eq_self (s : Str) (h1 : ∀ c, s.head? = some c → isJsWs c = false)
    (h2 : ∀ c, s.getLast? = some c → isJsWs c = false) : trimStr s = s := by
  unfold trimStr trimL
  rw [dropWhile_eq_self_of_head _ _ h1, dropWhile_eq_self_of_head, List.reverse_reverse]
  intro c hc
  apply h2
  rwa [List.head?_reverse] at hc

theorem length_trimStr_le_trimL (s : Str) : (trimStr s).length ≤ (trimL s).length := by
  unfold trimStr
  calc ((trimL s).reverse.dropWhile isJsWs).reverse.length
      = ((trimL s).reverse.dropWhile isJsWs).length := List.length_reverse _
    _ ≤ (trimL s).reverse.length := (List.dropWhile_sublist _).length_le
    _ = (trimL s).length := List.length_reverse _

theorem trimFixed_head (c : Str) (hc : trimStr c = c) :
    ∀ ch, c.head? = some ch → isJsWs ch = false := by
  intro ch h
  by_contra hws
  rw [Bool.not_eq_false] at hws
  cases c with
  | nil => simp at h
  | cons a t =>
    have ha : a = ch := by simpa using h
    subst ha
    have h1 : (trimL (a :: t)).length ≤ t.length := by
      unfold trimL
      rw [List.dropWhile_cons, if_pos hws]
      exact (List.dropWhile_sublist _).length_le
    have h2 := length_trimStr_le_trimL (a :: t)
    rw [hc] at h2
    simp at h2
    omega

theorem trimFixed_last (c : Str) (hc : trimStr c = c) :
    ∀ ch, c.getLast? = some ch → isJsWs ch = false := by
  intro ch h
  by_contra hws
  rw [Bool.not_eq_false] at hws
  have hne : c ≠ [] := by rintro rfl; simp at h
  have hrev : c.reverse.head? = some ch := by rwa [List.head?_reverse]
  have hlen : (c.reverse.dropWhile isJsWs).length ≤ c.length - 1 := by
    cases hr : c.reverse with
    | nil => simp [hr] at hrev
    | cons a t =>
      have ha : a = ch := by simp [hr] at hrev; exact hrev
      subst ha
      rw [List.dropWhile_cons, if_pos hws]
      have h3 := (List.dropWhile_sublist (l := t) isJsWs).length_le
      have hlt : t.length = c.length - 1 := by
        have h4 : c.reverse.length = c.length := List.length_reverse _
        rw [hr] at h4
        simp at h4
        omega
      omega
  have hkey : (trimStr c).length ≤ c.length - 1 := by
    unfold trimStr trimL
    have hmono : ((c.dropWhile isJsWs).reverse.dropWhile isJsWs).length ≤
        (c.reverse.dropWhile isJsWs).length := by
      have hstep : c.dropWhile isJsWs = c := by
        apply dropWhile_eq_self_of_head
        intro d hd
        by_contra hdws
        rw [Bool.not_eq_false] at hdws
        -- if the head were whitespace, trimStr c would be shorter than c
        cases c with
        | nil => simp at hd
        | cons a t =>
          have ha : a = d := by simpa using hd
          subst ha
          have h1 : (trimL (a :: t)).length ≤ t.length := by
            unfold trimL
            rw [List.dropWhile_cons, if_pos hdws]
            exact (List.dropWhile_sublist _).length_le
          have h2 := length_trimStr_le_trimL (a :: t)
          rw [hc] at h2
          simp at h2
          omega
      rw [hstep]
    calc ((c.dropWhile isJsWs).reverse.dropWhile isJsWs).reverse.length
        = ((c.dropWhile isJsWs).reverse.dropWhile isJsWs).length := List.length_reverse _
      _ ≤ (c.reverse.dropWhile isJsWs).length := hmono
      _ ≤ c.length - 1 := hlen
  rw [hc] at hkey
  have : 0 < c.length := List.length_pos.mpr hne
  omega

theorem dropWhile_append_all (p : Char → Bool) (a b : Str) (h : ∀ c ∈ a, p c = true) :
    List.dropWhile p (a ++ b) = List.dropWhile p b := by
  induction a with
  | nil => rfl
  | cons c t ih =>
    rw [List.cons_append, List.dropWhile_cons, if_pos (h c (by simp))]
    exact ih (fun c hc => h c (by simp [hc]))

theorem trimStr_append_ws (x w : Str) (hw : ∀ c ∈ w, isJsWs c = true) :
    trimStr (x ++ w) = trimStr x := by
  unfold trimStr trimL
  rw [List.dropWhile_append]
  by_cases hx : (List.dropWhile isJsWs x).isEmpty = true
  · rw [if_pos hx]
    have hw0 : List.dropWhile isJsWs w = [] := List.dropWhile_eq_nil_iff.mpr hw
    have hx0 : List.dropWhile isJsWs x = [] := by simpa using hx
    rw [hw0, hx0]
  · rw [if_neg hx, List.reverse_append, dropWhile_append_all]
    intro c hc
    exact hw c (by simpa using hc)

theorem splitOnChar_not_mem (ch : Char) (s : Str) (h : ch ∉ s) : splitOnChar ch s = [s] := by
  induction s with
  | nil => rfl
  | cons c t ih =>
    have hc : ¬(c = ch) := fun hh => h (by simp [hh])
    rw [splitOnChar, ih (fun hm => h (by simp [hm]))]
    simp [hc]

theorem splitOnChar_ne_nil (ch : Char) (s : Str) : splitOnChar ch s ≠ [] := by
  induction s with
  | nil => simp [splitOnChar]
  | cons c t ih =>
    rcases h : splitOnChar ch t with _ | ⟨r, rs⟩
    · exact absurd h ih
    · rw [splitOnChar, h]
      by_cases hc : c = ch <;> simp [hc]

theorem splitOnChar_append (ch : Char) (p rest : Str) (h : ch ∉ p) :
    splitOnChar ch (p ++ ch :: rest) = p :: splitOnChar ch rest := by
  induction p with
  | nil =>
    rw [List.nil_append, splitOnChar]
    rcases hs : splitOnChar ch rest with _ | ⟨r, rs⟩
    · exact absurd hs (splitOnChar_ne_nil ch rest)
    · simp
  | cons c t ih =>
    have hc : ¬(c = ch) := fun hh => h (by simp [hh])
    rw [List.cons_append, splitOnChar, ih (fun hm => h (by simp [hm]))]
    simp [hc]

theorem splitOnChar_joinWith (ch : Char) (ls : List Str) (hne : ls ≠ [])
    (h : ∀ l ∈ ls, ch ∉ l) :
    splitOnChar ch (joinWith [ch] ls) = ls := by
  induction ls with
  | nil => exact absurd rfl hne
  | cons l rest ih =>
    cases rest with
    | nil => exact splitOnChar_not_mem ch l (h l (by simp))
    | cons l2 rest2 =>
      have hjoin : joinWith [ch] (l :: l2 :: rest2) = l ++ ch :: joinWith [ch] (l2 :: rest2) := by
        simp [joinWith]
      rw [hjoin, splitOnChar_append ch l _ (h l (by simp)),
        ih (by simp) (fun x hx => h x (by simp [hx]))]

theorem joinWith_append (sep : Str) (A B : List Str) (hA : A ≠ []) (hB : B ≠ []) :
    joinWith sep (A ++ B) = joinWith sep A ++ sep ++ joinWith sep B := by
  induction A with
  | nil => exact absurd rfl hA
  | cons l rest ih =>
    cases rest with
    | nil =>
      cases B with
      | nil => exact absurd rfl hB
      | cons b bs => simp [joinWith]
    | cons l2 rest2 =>
      have h1 : joinWith sep ((l :: l2 :: rest2) ++ B) =
          l ++ sep ++ joinWith sep ((l2 :: rest2) ++ B) := by
        cases B <;> simp [joinWith]
      rw [h1, ih (by simp)]
      simp [joinWith]

theorem mem_joinWith (sep : Str) (ls : List Str) (ch : Char) (h : ch ∈ joinWith sep ls) :
    ch ∈ sep ∨ ∃ l ∈ ls, ch ∈ l := by
  induction ls with
  | nil => simp [joinWith] at h
  | cons l rest ih =>
    cases rest with
    | nil =>
      simp only [joinWith] at h
      exact Or.inr ⟨l, by simp, h⟩
    | cons l2 rest2 =>
      simp only [joinWith, List.append_assoc, List.mem_append] at h
      rcases h with h | h | h
      · exact Or.inr ⟨l, by simp, h⟩
      · exact Or.inl h
      · rcases ih h with h' | ⟨x, hx, hchx⟩
        · exact Or.inl h'
        · exact Or.inr ⟨x, by simp [hx], hchx⟩

theorem escapeCell_eq_self (c : Str) (h : '|' ∉ c) : SheetsConverter.escapeCell c = c := by
  induction c with
  | nil => rfl
  | cons a t ih =>
    have ha : ¬(a = '|') := fun hh => h (by simp [hh])
    rw [SheetsConverter.escapeCell, if_neg ha, ih (fun hm => h (by simp [hm]))]

theorem unescapeCell_eq_self (c : Str) (h : '|' ∉ c) : SheetsConverter.unescapeCell c = c := by
  induction c with
  | nil => rfl
  | cons a t ih =>
    have ht : '|' ∉ t := fun hm => h (by simp [hm])
    rcases t with _ | ⟨b, t2⟩
    · rfl
    · have hb : ¬(b = '|') := fun hh => h (by simp [hh])
      rw [SheetsConverter.unescapeCell, if_neg (by simp [hb]), ih ht]

theorem trimStr_pad (c : Str) (hc : trimStr c = c) : trimStr (' ' :: c ++ [' ']) = c := by
  cases c with
  | nil => rfl
  | cons h0 t =>
    unfold trimStr trimL
    have hhead : isJsWs h0 = false := trimFixed_head _ hc h0 rfl
    have hlast : ∀ ch, (h0 :: t).getLast? = some ch → isJsWs ch = false := trimFixed_last _ hc
    have h1 : List.dropWhile isJsWs (' ' :: (h0 :: t) ++ [' ']) = (h0 :: t) ++ [' '] := by
      rw [List.cons_append, List.dropWhile_cons, if_pos (by decide), List.cons_append,
        List.dropWhile_cons, if_neg (by simp [hhead])]
    rw [h1, List.reverse_append]
    have hlast2 : isJsWs ((h0 :: t).getLast (by simp)) = false :=
      hlast _ (List.getLast?_eq_getLast _ _)
    have h2 : List.dropWhile isJsWs ([' '].reverse ++ (h0 :: t).reverse) =
        (h0 :: t).reverse := by
      rw [List.reverse_singleton]
      rw [dropWhile_append_all _ _ _ (by intro c hc2; simp at hc2; simp [hc2]; decide)]
      apply dropWhile_eq_self_of_head
      intro ch hch
      rw [List.head?_reverse] at hch
      exact hlast ch hch
    rw [h2, List.reverse_reverse]

/-! ### Lemmas about the slide-separator split -/

theorem sdGo_nil (skip : Bool) (acc : Str) : SlidesConverter.sdGo skip acc [] = [acc.reverse] := by
  cases skip <;> rfl

theorem sdGo_skip_nl (acc rest : Str) :
    SlidesConverter.sdGo true acc ('\n' :: rest) = SlidesConverter.sdGo true acc rest := rfl

theorem sdGo_triple (skip : Bool) (acc rest : Str) :
    SlidesConverter.sdGo skip acc ('-' :: '-' :: '-' :: rest) =
      acc.reverse :: SlidesConverter.sdGo true [] rest := by
  cases skip <;> rfl

theorem sdGo_other (skip : Bool) (acc : Str) (c : Char) (rest : Str)
    (h1 : skip = true → c ≠ '\n')
    (h2 : seqStartsWith "---".toList (c :: rest) = false) :
    SlidesConverter.sdGo skip acc (c :: rest) = SlidesConverter.sdGo false (c :: acc) rest := by
  by_cases hc : c = '-'
  · subst hc
    simp only [seqStartsWith, Bool.and_eq_false_iff] at h2
    rcases rest with _ | ⟨c2, rest2⟩
    · cases skip <;> simp [SlidesConverter.sdGo]
    · rcases rest2 with _ | ⟨c3, rest3⟩
      · cases skip <;> simp [SlidesConverter.sdGo]
      · rcases h2 with h2 | h2
        · simp at h2
        · by_cases hc2 : c2 = '-'
          · subst hc2
            simp only [seqStartsWith, Bool.and_eq_false_iff] at h2
            rcases h2 with h2 | h2
            · simp at h2
            · rcases h2 with h2 | h2
              · have hc3 : ¬(c3 = '-') := by
                  intro hh; rw [hh] at h2; simp at h2
                cases skip <;> simp [SlidesConverter.sdGo, hc3]
              · simp at h2
          · cases skip <;> simp [SlidesConverter.sdGo, hc2]
  · cases skip with
    | false => rcases rest with _ | ⟨c2, _ | ⟨c3, rest3⟩⟩ <;> simp [SlidesConverter.sdGo, hc]
    | true =>
      have hnl : ¬(c = '\n') := h1 rfl
      rcases rest with _ | ⟨c2, _ | ⟨c3, rest3⟩⟩ <;> simp [SlidesConverter.sdGo, hc, hnl]

theorem sdGo_skip_exit (acc : Str) (c : Char) (rest : Str) (h : ¬(c = '\n')) :
    SlidesConverter.sdGo true acc (c :: rest) = SlidesConverter.sdGo false acc (c :: rest) := by
  by_cases hc : c = '-'
  · subst hc
    rcases rest with _ | ⟨c2, _ | ⟨c3, rest3⟩⟩ <;> try simp [SlidesConverter.sdGo]
    by_cases hc2 : c2 = '-'
    · subst hc2
      by_cases hc3 : c3 = '-'
      · subst hc3; rfl
      · simp [SlidesConverter.sdGo, hc3]
    · simp [SlidesConverter.sdGo, hc2]
  · rcases rest with _ | ⟨c2, _ | ⟨c3, rest3⟩⟩ <;> simp [SlidesConverter.sdGo, hc, h]

theorem starts_triple_nl (c : Char) (C X : Str) :
    seqStartsWith "---".toList (c :: (C ++ '\n' :: X)) = seqStartsWith "---".toList (c :: C) := by
  rcases C with _ | ⟨d, _ | ⟨e, C3⟩⟩ <;> simp [seqStartsWith]

theorem containsSeq_triple_append_nl (a b : Str) :
    containsSeq "---".toList (a ++ '\n' :: b) =
      (containsSeq "---".toList a || containsSeq "---".toList b) := by
  induction a with
  | nil => simp [containsSeq, seqStartsWith]
  | cons c a' ih =>
    rw [List.cons_append, containsSeq, ih, starts_triple_nl]
    rw [containsSeq]
    rw [Bool.or_assoc]

theorem containsSeq_triple_join (ls : List Str) (hne : ls ≠ [])
    (h : ∀ l ∈ ls, containsSeq "---".toList l = false) :
    containsSeq "---".toList (joinWith ['\n'] ls) = false := by
  induction ls with
  | nil => exact absurd rfl hne
  | cons l rest ih =>
    cases rest with
    | nil => exact h l (by simp)
    | cons l2 rest2 =>
      have hj : joinWith ['\n'] (l :: l2 :: rest2) = l ++ '\n' :: joinWith ['\n'] (l2 :: rest2) := by
        simp [joinWith]
      rw [hj, containsSeq_triple_append_nl, h l (by simp),
        ih (by simp) (fun x hx => h x (by simp [hx]))]
      rfl

theorem containsSeq_triple_cons2 (c1 c2 : Char) (h : ¬(c2 = '-')) (s : Str) :
    containsSeq "---".toList (c1 :: c2 :: s) = containsSeq "---".toList s := by
  rw [containsSeq, containsSeq]
  have h1 : seqStartsWith "---".toList (c1 :: c2 :: s) = false := by
    simp [seqStartsWith]
    intro _
    exact fun hh => absurd hh.symm h
  have h2 : seqStartsWith "---".toList (c2 :: s) = false := by
    simp [seqStartsWith]
    exact fun hh => absurd hh.symm h
  rw [h1, h2]
  simp

theorem containsSeq_triple_cons (c : Char) (h : ¬(c = '-')) (s : Str) :
    containsSeq "---".toList (c :: s) = containsSeq "---".toList s := by
  rw [containsSeq]
  have h1 : seqStartsWith "---".toList (c :: s) = false := by
    simp [seqStartsWith]
    exact fun hh => absurd hh.symm h
  rw [h1]
  simp

theorem digit_ne_dash (c : Char) (h : isDigitCh c = true) : ¬(c = '-') := by
  intro hh
  subst hh
  simp [isDigitCh] at h

theorem containsSeq_triple_digits (d : Str) (hd : ∀ c ∈ d, isDigitCh c = true) (s : Str) :
    containsSeq "---".toList (d ++ s) = containsSeq "---".toList s := by
  induction d with
  | nil => rfl
  | cons c t ih =>
    rw [List.cons_append, containsSeq_triple_cons c (digit_ne_dash c (hd c (by simp))),
      ih (fun x hx => hd x (by simp [hx]))]

theorem sdGo_final (s : Str) (h : containsSeq "---".toList s = false) :
    ∀ acc, SlidesConverter.sdGo false acc s = [acc.reverse ++ s] := by
  induction s with
  | nil => intro acc; rw [sdGo_nil]; simp
  | cons c rest ih =>
    intro acc
    rw [containsSeq, Bool.or_eq_false_iff] at h
    rw [sdGo_other false acc c rest (by simp) h.1, ih h.2]
    simp

theorem sdGo_until_sep (C : Str) (h : containsSeq "---".toList C = false) :
    ∀ (acc B : Str),
      SlidesConverter.sdGo false acc (C ++ '\n' :: '-' :: '-' :: '-' :: B) =
        (acc.reverse ++ C ++ ['\n']) :: SlidesConverter.sdGo true [] B := by
  induction C with
  | nil =>
    intro acc B
    rw [List.nil_append,
      sdGo_other false acc '\n' _ (by simp) (by simp [seqStartsWith]),
      sdGo_triple]
    simp
  | cons c C' ih =>
    intro acc B
    rw [containsSeq, Bool.or_eq_false_iff] at h
    have hstart : seqStartsWith "---".toList (c :: (C' ++ '\n' :: '-' :: '-' :: '-' :: B)) = false := by
      rw [starts_triple_nl]
      exact h.1
    rw [List.cons_append, sdGo_other false acc c _ (by simp) hstart, ih h.2]
    simp

/-! ### C1: section filtering -/

/-- C1 (counterexample): the claim says a section with a heading but
whitespace-only body is kept; on input `"# T"` the only section has heading
`"T"` and empty body, yet `splitIntoSections` returns the empty list. -/
theorem c1_counterexample : NoteAnalyzer.splitIntoSections ("# T".toList) = [] := by decide

/-- C1 (amended): `splitIntoSections` keeps a section if and only if its
heading is nonempty AND its trimmed body is nonempty; in particular a section
with a heading but whitespace-only body is dropped, not kept. -/
theorem c1_sections_kept_iff (content : Str) :
    (∀ s ∈ NoteAnalyzer.splitIntoSections content,
       s.heading ≠ [] ∧ trimStr s.content ≠ []) ∧
    (∀ s ∈ NoteAnalyzer.rawSections content,
       s.heading ≠ [] → trimStr s.content ≠ [] →
         s ∈ NoteAnalyzer.splitIntoSections content) := by
  constructor
  · intro s hs
    unfold NoteAnalyzer.splitIntoSections at hs
    rw [List.mem_filter] at hs
    have h2 := hs.2
    simp only [Bool.and_eq_true, Bool.not_eq_true', List.isEmpty_eq_false] at h2
    simpa using h2
  · intro s hs h1 h2
    unfold NoteAnalyzer.splitIntoSections
    rw [List.mem_filter]
    refine ⟨hs, ?_⟩
    simp only [Bool.and_eq_true, Bool.not_eq_true', List.isEmpty_eq_false]
    exact ⟨h1, h2⟩

/-- C1 (witness): applying the kept-iff theorem on a concrete input. -/
theorem c1_witness : ("T".toList : Str) ≠ [] ∧ trimStr ("body".toList) ≠ [] :=
  (c1_sections_kept_iff ("# T\nbody".toList)).1 ⟨"T".toList, "body".toList⟩ (by decide)

/-! ### C4: content-type override order -/

/-- C4: the content type is computed by ordered overrides starting at
`general` (article, then report, then letter, then notes), so the final value
is the last applicable rule: notes beats letter beats report beats article. -/
theorem c4_contentType_override_order (content : Str) :
    NoteAnalyzer.contentTypeOf content =
      (if (NoteAnalyzer.extractHeadings content).length ≤ 2 ∧
          NoteAnalyzer.countParagraphs content ≤ 3 then
        NoteAnalyzer.ContentType.notes
       else if NoteAnalyzer.lineStartsAnyCI NoteAnalyzer.letterWords content then
        NoteAnalyzer.ContentType.letter
       else if NoteAnalyzer.lineStartsAnyCI NoteAnalyzer.reportWords content then
        NoteAnalyzer.ContentType.report
       else if 3 ≤ (NoteAnalyzer.extractHeadings content).length ∧
          5 ≤ NoteAnalyzer.countParagraphs content then
        NoteAnalyzer.ContentType.article
       else NoteAnalyzer.ContentType.general) := by
  unfold NoteAnalyzer.contentTypeOf
  by_cases h1 : 3 ≤ (NoteAnalyzer.extractHeadings content).length ∧
      5 ≤ NoteAnalyzer.countParagraphs content <;>
  by_cases h2 : NoteAnalyzer.lineStartsAnyCI NoteAnalyzer.reportWords content = true <;>
  by_cases h3 : NoteAnalyzer.lineStartsAnyCI NoteAnalyzer.letterWords content = true <;>
  by_cases h4 : (NoteAnalyzer.extractHeadings content).length ≤ 2 ∧
      NoteAnalyzer.countParagraphs content ≤ 3 <;>
  simp [h1, h2, h3, h4]

/-! ### C6: pass-2 guard of the question detector -/

/-- C6: a trimmed line matching the `Q:`/`Question N:` prefix pattern that
also ends with `'?'` produces nothing in pass 2 (it is classified by pass 1
alone); pass 2 fires only for prefix lines not ending in `'?'`, and its
questions never carry a correct answer. -/
theorem c6_pass2_guard (lines : List Str) (i : Nat) :
    ((NoteAnalyzer.matchQPrefix (trimStr (lines.getD i []))).isSome = true →
      (trimStr (lines.getD i [])).getLast? = some '?' →
      NoteAnalyzer.questionsPass2 lines i = []) ∧
    (∀ q ∈ NoteAnalyzer.questionsPass2 lines i,
      (NoteAnalyzer.matchQPrefix (trimStr (lines.getD i []))).isSome = true ∧
      (trimStr (lines.getD i [])).getLast? ≠ some '?' ∧
      q.correctAnswer = none) := by
  constructor
  · intro hpre hq
    rcases hm : NoteAnalyzer.matchQPrefix (trimStr (lines.getD i [])) with _ | cap
    · simp only [NoteAnalyzer.questionsPass2, hm]
    · simp only [NoteAnalyzer.questionsPass2, hm, hq]
      simp
  · intro q hq
    rcases hm : NoteAnalyzer.matchQPrefix (trimStr (lines.getD i [])) with _ | cap
    · simp only [NoteAnalyzer.questionsPass2, hm] at hq
      simp at hq
    · simp only [NoteAnalyzer.questionsPass2, hm] at hq
      by_cases hlast : (trimStr (lines.getD i [])).getLast? = some '?'
      · rw [List.getD_eq_getElem?_getD] at hlast
        simp [hlast] at hq
      · refine ⟨by simp [hm], hlast, ?_⟩
        rw [List.getD_eq_getElem?_getD] at hlast
        simp [hlast] at hq
        simp [hq]

/-- C6 (witness): on the line `"Q1: is it good?"` pass 2 yields nothing. -/
theorem c6_witness : NoteAnalyzer.questionsPass2 ["Q1: is it good?".toList] 0 = [] :=
  (c6_pass2_guard ["Q1: is it good?".toList] 0).1 (by decide) (by decide)

/-! ### C9: totality of the analyzer -/

/-- C9: `analyze` and its parsing helpers are total functions of the input
text — every input (including empty) yields a value, never an error — and
absence of recognizable structure yields empty sequences and safe defaults
(empty tables/lists/data/headings/sections/questions, `general` form type,
`none` chart suggestion, fallback title with the `.md` suffix stripped). -/
theorem c9_analyze_total :
    (∀ content fileName : Str, ∃ a, NoteAnalyzer.analyze content fileName = a) ∧
    (∀ content : Str, ∃ r, NoteAnalyzer.extractTables content = r) ∧
    (∀ content : Str, ∃ r, NoteAnalyzer.extractLists content = r) ∧
    (∀ content : Str, ∃ r, NoteAnalyzer.extractNumericalData content = r) ∧
    (∀ content : Str, ∃ r, NoteAnalyzer.extractHeadings content = r) ∧
    (∀ content : Str, ∃ r, NoteAnalyzer.splitIntoSections content = r) ∧
    (∀ content : Str, ∃ r, NoteAnalyzer.detectQuestions content = r) ∧
    ((NoteAnalyzer.analyze ("just plain words".toList) ("note.md".toList)).sheets.tables = [] ∧
     (NoteAnalyzer.analyze ("just plain words".toList) ("note.md".toList)).sheets.lists = [] ∧
     (NoteAnalyzer.analyze ("just plain words".toList) ("note.md".toList)).sheets.numericalData = [] ∧
     (NoteAnalyzer.analyze ("just plain words".toList) ("note.md".toList)).sheets.suggestedChartType =
       NoteAnalyzer.ChartType.none ∧
     (NoteAnalyzer.analyze ("just plain words".toList) ("note.md".toList)).docs.headings = [] ∧
     (NoteAnalyzer.analyze ("just plain words".toList) ("note.md".toList)).forms.questions = [] ∧
     (NoteAnalyzer.analyze ("just plain words".toList) ("note.md".toList)).forms.formType =
       NoteAnalyzer.FormType.general ∧
     (NoteAnalyzer.analyze ("just plain words".toList) ("note.md".toList)).title = "note".toList ∧
     NoteAnalyzer.splitIntoSections ("just plain words".toList) = []) :=
  ⟨fun c f => ⟨_, rfl⟩, fun c => ⟨_, rfl⟩, fun c => ⟨_, rfl⟩, fun c => ⟨_, rfl⟩,
   fun c => ⟨_, rfl⟩, fun c => ⟨_, rfl⟩, fun c => ⟨_, rfl⟩, by decide⟩

/-! ### C8: separator rows in the analyzer's table extractor -/

theorem tablesGo_rows_from (P : List Str → Prop) :
    ∀ (lines : List Str) (i : Int) (st : Option (List Str × List (List Str) × Int)),
      (∀ h r sl, st = some (h, r, sl) → P h ∧ ∀ x ∈ r, P x) →
      (∀ l ∈ lines, NoteAnalyzer.isTableLine (trimStr l) = true →
         NoteAnalyzer.isSepLine (trimStr l) = false → P (NoteAnalyzer.innerCells (trimStr l))) →
      ∀ t ∈ NoteAnalyzer.tablesGo lines i st, P t.headers ∧ ∀ x ∈ t.rows, P x := by
  intro lines
  induction lines with
  | nil =>
    intro i st hst hln t ht
    rcases st with _ | ⟨h, r, sl⟩
    · simp [NoteAnalyzer.tablesGo] at ht
    · simp only [NoteAnalyzer.tablesGo] at ht
      split at ht
      · simp at ht
        rw [ht]
        exact hst h r sl rfl
      · simp at ht
  | cons l rest ih =>
    intro i st hst hln t ht
    simp only [NoteAnalyzer.tablesGo] at ht
    by_cases h1 : NoteAnalyzer.isTableLine (trimStr l) = true
    · rw [if_pos h1] at ht
      by_cases h2 : NoteAnalyzer.isSepLine (trimStr l) = true
      · rw [if_pos h2] at ht
        exact ih (i + 1) st hst (fun x hx => hln x (by simp [hx])) t ht
      · rw [if_neg h2] at ht
        have hcells := hln l (by simp) h1 (by simpa using h2)
        rcases st with _ | ⟨h, r, sl⟩
        · exact ih (i + 1) _
            (by rintro h' r' sl' ⟨⟩; exact ⟨hcells, by simp⟩)
            (fun x hx => hln x (by simp [hx])) t ht
        · refine ih (i + 1) _ ?_ (fun x hx => hln x (by simp [hx])) t ht
          rintro h' r' sl' ⟨⟩
          have hold := hst h r sl rfl
          refine ⟨hold.1, ?_⟩
          intro x hx
          rw [List.mem_append] at hx
          rcases hx with hx | hx
          · exact hold.2 x hx
          · simp at hx
            rw [hx]
            exact hcells
    · rw [if_neg h1] at ht
      rcases st with _ | ⟨h, r, sl⟩
      · exact ih (i + 1) none (by rintro _ _ _ ⟨⟩) (fun x hx => hln x (by simp [hx])) t ht
      · rw [List.mem_append] at ht
        rcases ht with ht | ht
        · have hold := hst h r sl rfl
          split at ht
          · simp at ht
            rw [ht]
            exact hold
          · simp at ht
        · exact ih (i + 1) none (by rintro _ _ _ ⟨⟩) (fun x hx => hln x (by simp [hx])) t ht

/-- C8: no table returned by `extractTables` has a separator row as its header
or as a data row — every header/data row comes from a non-separator table line
of the input; a separator line leaves the scan state untouched (it neither
starts nor terminates a run); and header cell count can exceed a data row's
cell count (short rows are not padded), as on `"| a | b |"` over `"| c |"`. -/
theorem c8_separator_rows_skipped :
    (∀ (content : Str) (t : NoteAnalyzer.ExtractedTable), t ∈ NoteAnalyzer.extractTables content →
      ∀ r ∈ t.headers :: t.rows,
        ∃ l ∈ linesOf content, NoteAnalyzer.isTableLine (trimStr l) = true ∧
          NoteAnalyzer.isSepLine (trimStr l) = false ∧ NoteAnalyzer.innerCells (trimStr l) = r) ∧
    (∀ (l : Str) (rest : List Str) (i : Int) (st : Option (List Str × List (List Str) × Int)),
      NoteAnalyzer.isTableLine (trimStr l) = true → NoteAnalyzer.isSepLine (trimStr l) = true →
      NoteAnalyzer.tablesGo (l :: rest) i st = NoteAnalyzer.tablesGo rest (i + 1) st) ∧
    (NoteAnalyzer.extractTables ("| a | b |\n| --- | --- |\n| c |".toList) =
      [⟨[['a'], ['b']], [[['c']]], 0⟩]) := by
  refine ⟨?_, ?_, by decide⟩
  · intro content t ht r hr
    have hmain := tablesGo_rows_from
      (fun r => ∃ l ∈ linesOf content, NoteAnalyzer.isTableLine (trimStr l) = true ∧
        NoteAnalyzer.isSepLine (trimStr l) = false ∧ NoteAnalyzer.innerCells (trimStr l) = r)
      (linesOf content) 0 none (by rintro _ _ _ ⟨⟩)
      (fun l hl h1 h2 => ⟨l, hl, h1, h2, rfl⟩) t ht
    rcases List.mem_cons.mp hr with hr2 | hr2
    · rw [hr2]
      exact hmain.1
    · exact hmain.2 r hr2
  · intro l rest i st h1 h2
    simp only [NoteAnalyzer.tablesGo]
    rw [if_pos h1, if_pos h2]

/-- C8 (witness): the provenance part applied to the concrete table of the
concrete conjunct, and the skip equation applied to a concrete separator. -/
theorem c8_witness :
    (∃ l ∈ linesOf ("| a | b |\n| --- | --- |\n| c |".toList),
      NoteAnalyzer.isTableLine (trimStr l) = true ∧
      NoteAnalyzer.isSepLine (trimStr l) = false ∧
      NoteAnalyzer.innerCells (trimStr l) = [['c']]) ∧
    NoteAnalyzer.tablesGo ["| --- |".toList, "| x |".toList] 0 none =
      NoteAnalyzer.tablesGo ["| x |".toList] 1 none :=
  ⟨c8_separator_rows_skipped.1 ("| a | b |\n| --- | --- |\n| c |".toList)
      ⟨[['a'], ['b']], [[['c']]], 0⟩ (by decide) [['c']] (by decide),
   by
    have h := c8_separator_rows_skipped.2.1 ("| --- |".toList) ["| x |".toList] 0 none
      (by decide) (by decide)
    simpa using h⟩

/-! ### C7: first-occurrence deduplication -/

theorem dedupGo_mem_not_seen :
    ∀ (l : List NoteAnalyzer.DetectedQuestion) (seen : List Str) (q : NoteAnalyzer.DetectedQuestion),
      q ∈ NoteAnalyzer.dedupGo seen l → lowerStr q.text ∉ seen := by
  intro l
  induction l with
  | nil => intro seen q hq; simp [NoteAnalyzer.dedupGo] at hq
  | cons p rest ih =>
    intro seen q hq
    rw [NoteAnalyzer.dedupGo] at hq
    by_cases hp : lowerStr p.text ∈ seen
    · rw [if_pos hp] at hq
      exact ih seen q hq
    · rw [if_neg hp] at hq
      rcases List.mem_cons.mp hq with h | h
      · rw [h]; exact hp
      · have := ih _ q h
        intro hcon
        exact this (by simp [hcon])

theorem dedupGo_find :
    ∀ (l : List NoteAnalyzer.DetectedQuestion) (seen : List Str) (q : NoteAnalyzer.DetectedQuestion),
      q ∈ NoteAnalyzer.dedupGo seen l →
      l.find? (fun p => lowerStr p.text == lowerStr q.text) = some q := by
  intro l
  induction l with
  | nil => intro seen q hq; simp [NoteAnalyzer.dedupGo] at hq
  | cons p rest ih =>
    intro seen q hq
    rw [NoteAnalyzer.dedupGo] at hq
    by_cases hp : lowerStr p.text ∈ seen
    · rw [if_pos hp] at hq
      have hkey : lowerStr q.text ∉ seen := dedupGo_mem_not_seen rest seen q hq
      have hne : ¬(lowerStr p.text == lowerStr q.text) = true := by
        simp only [beq_iff_eq]
        intro hcon
        exact hkey (hcon ▸ hp)
      rw [List.find?_cons_of_neg _ (by simpa using hne)]
      exact ih seen q hq
    · rw [if_neg hp] at hq
      rcases List.mem_cons.mp hq with h | h
      · rw [h, List.find?_cons_of_pos _ (by simp)]
      · have hkey : lowerStr q.text ∉ lowerStr p.text :: seen :=
          dedupGo_mem_not_seen rest _ q h
        have hne : ¬(lowerStr p.text == lowerStr q.text) = true := by
          simp only [beq_iff_eq]
          intro hcon
          exact hkey (by simp [hcon])
        rw [List.find?_cons_of_neg _ (by simpa using hne)]
        exact ih _ q h

theorem dedupGo_pairwise :
    ∀ (l : List NoteAnalyzer.DetectedQuestion) (seen : List Str),
      (NoteAnalyzer.dedupGo seen l).Pairwise (fun a b => lowerStr a.text ≠ lowerStr b.text) := by
  intro l
  induction l with
  | nil => intro seen; simp [NoteAnalyzer.dedupGo]
  | cons p rest ih =>
    intro seen
    rw [NoteAnalyzer.dedupGo]
    by_cases hp : lowerStr p.text ∈ seen
    · rw [if_pos hp]; exact ih seen
    · rw [if_neg hp]
      refine List.Pairwise.cons ?_ (ih _)
      intro q hq hcon
      have := dedupGo_mem_not_seen rest _ q hq
      exact this (by simp [hcon])

/-- C7: `detectQuestions` keeps at most one question per lower-cased text key,
and each kept question is the first-detected occurrence in full (type,
options, required flag, correct answer included); later duplicates are
discarded. -/
theorem c7_dedup_first_wins (content : Str) :
    (NoteAnalyzer.detectQuestions content).Pairwise
      (fun a b => lowerStr a.text ≠ lowerStr b.text) ∧
    ∀ q ∈ NoteAnalyzer.detectQuestions content,
      (NoteAnalyzer.allDetected content).find?
        (fun p => lowerStr p.text == lowerStr q.text) = some q :=
  ⟨dedupGo_pairwise _ [], fun q hq => dedupGo_find _ [] q hq⟩

/-- C7 (witness): on an input with a duplicated question text (with different
trailing options), the single retained record is the first occurrence. -/
theorem c7_witness :
    (NoteAnalyzer.allDetected ("Is it ok?\n- yes\n- no\n\nIs it OK?".toList)).find?
        (fun p => lowerStr p.text ==
          lowerStr (⟨"Is it ok?".toList, NoteAnalyzer.QType.multiple_choice,
            ["yes".toList, "no".toList], true, none, none⟩ :
              NoteAnalyzer.DetectedQuestion).text) =
      some ⟨"Is it ok?".toList, NoteAnalyzer.QType.multiple_choice,
        ["yes".toList, "no".toList], true, none, none⟩ :=
  (c7_dedup_first_wins ("Is it ok?\n- yes\n- no\n\nIs it OK?".toList)).2
    ⟨"Is it ok?".toList, NoteAnalyzer.QType.multiple_choice,
      ["yes".toList, "no".toList], true, none, none⟩ (by decide)

/-! ### C5: running insertion cursor of the Docs converter -/

theorem insertsOf_formatting (text : Str) (idx : Nat) :
    DocsConverter.insertsOf (DocsConverter.createFormattingRequests text idx) = [] := by
  unfold DocsConverter.insertsOf DocsConverter.createFormattingRequests
  rw [List.filterMap_append, List.filterMap_map, List.filterMap_map]
  have h1 : ∀ m : Str × Str,
      (fun r => match r with
        | DocsConverter.DocsRequest.insertText i t => some (i, t)
        | _ => none)
      (DocsConverter.DocsRequest.updateTextStyle ((idx : Int) + DocsConverter.jsIndexOf m.1 text)
        ((idx : Int) + DocsConverter.jsIndexOf m.1 text + m.2.length + 4) "bold".toList) = none :=
    fun m => rfl
  simp [Function.comp]

theorem insertsOf_docsLoop_cons (line : Str) (rest : List Str) (idx : Nat) :
    DocsConverter.insertsOf (DocsConverter.docsLoop (line :: rest) idx) =
      (if (DocsConverter.parseLine line).text.isEmpty ∧
          (DocsConverter.parseLine line).isList = false then
        (idx, ['\n']) :: DocsConverter.insertsOf (DocsConverter.docsLoop rest (idx + 1))
       else
        (idx, (DocsConverter.parseLine line).text ++ ['\n']) ::
          DocsConverter.insertsOf (DocsConverter.docsLoop rest
            (idx + ((DocsConverter.parseLine line).text ++ ['\n']).length))) := by
  have hfmt := insertsOf_formatting (DocsConverter.parseLine line).text idx
  unfold DocsConverter.insertsOf at hfmt ⊢
  rw [DocsConverter.docsLoop]
  by_cases h : (DocsConverter.parseLine line).text.isEmpty ∧
      (DocsConverter.parseLine line).isList = false
  · have hb : ((DocsConverter.parseLine line).text.isEmpty &&
        !(DocsConverter.parseLine line).isList) = true := by
      simp [h.1, h.2]
    rw [if_pos hb, if_pos h]
    rfl
  · have hb : ¬(((DocsConverter.parseLine line).text.isEmpty &&
        !(DocsConverter.parseLine line).isList) = true) := by
      simp only [Bool.and_eq_true, Bool.not_eq_true']
      intro hcon
      exact h ⟨hcon.1, hcon.2⟩
    rw [if_neg hb, if_neg h]
    rcases hst : (DocsConverter.parseLine line).style with _ | st <;>
      simp [hst, List.filterMap_append, hfmt]

theorem docsLoop_cursor :
    ∀ (lines : List Str) (idx k i : Nat) (t : Str),
      (DocsConverter.insertsOf (DocsConverter.docsLoop lines idx))[k]? = some (i, t) →
      i = idx + (((DocsConverter.insertsOf (DocsConverter.docsLoop lines idx)).take k).map
        (fun p => p.2.length)).sum := by
  intro lines
  induction lines with
  | nil =>
    intro idx k i t h
    simp [DocsConverter.docsLoop, DocsConverter.insertsOf] at h
  | cons line rest ih =>
    intro idx k i t h
    rw [insertsOf_docsLoop_cons] at h ⊢
    by_cases hcase : (DocsConverter.parseLine line).text.isEmpty ∧
        (DocsConverter.parseLine line).isList = false
    · rw [if_pos hcase] at h ⊢
      cases k with
      | zero =>
        rw [List.getElem?_cons_zero] at h
        simp at h
        simp [h.1]
      | succ k' =>
        rw [List.getElem?_cons_succ] at h
        have := ih (idx + 1) k' i t h
        rw [List.take_succ_cons, List.map_cons, List.sum_cons, this]
        simp
        omega
    · rw [if_neg hcase] at h ⊢
      cases k with
      | zero =>
        rw [List.getElem?_cons_zero] at h
        simp at h
        simp [h.1]
      | succ k' =>
        rw [List.getElem?_cons_succ] at h
        have := ih (idx + ((DocsConverter.parseLine line).text ++ ['\n']).length) k' i t h
        rw [List.take_succ_cons, List.map_cons, List.sum_cons, this]
        simp
        omega

/-- C5: in the request list of `markdownToDocsRequests`, the location index of
every `insertText` request equals the initial index 1 plus the total character
length of the text inserted by all preceding `insertText` requests — a single
running cursor that never resets at line boundaries. -/
theorem c5_running_cursor (md : Str) (k i : Nat) (t : Str)
    (h : (DocsConverter.insertsOf (DocsConverter.markdownToDocsRequests md))[k]? = some (i, t)) :
    i = 1 + (((DocsConverter.insertsOf (DocsConverter.markdownToDocsRequests md)).take k).map
      (fun p => p.2.length)).sum :=
  docsLoop_cursor (linesOf md) 1 k i t h

/-- C5 (witness): the second insert of `"# A\nB"` (the text `"B\n"`) sits at
index 3 = 1 + length `"A\n"`. -/
theorem c5_witness :
    (3 : Nat) = 1 + (((DocsConverter.insertsOf
        (DocsConverter.markdownToDocsRequests ("# A\nB".toList))).take 1).map
      (fun p => p.2.length)).sum :=
  c5_running_cursor ("# A\nB".toList) 1 3 ("B\n".toList) (by decide)

/-! ### C10: rectangular output of the sheet serializers -/

/-- C10: every line emitted by `arrayToMarkdownTable` (and by
`rowDataToMarkdownTable`), including the synthesized separator row, is a
pipe row built from exactly `maxCols` cell strings; cells missing from ragged
input rows render as the empty string, as the concrete ragged example shows. -/
theorem c10_rectangular_rows :
    (∀ (data : List (List Str)), data ≠ [] →
      ∀ l ∈ SheetsConverter.arrayToMarkdownTableLines data,
        ∃ cs, cs.length = SheetsConverter.maxColsOf data ∧ l = SheetsConverter.mdRow cs) ∧
    (∀ (rowData : List SheetsConverter.RowData),
      ∀ l ∈ SheetsConverter.rowDataToMarkdownTable rowData,
        ∃ cs, cs.length = SheetsConverter.maxColsRD rowData ∧ l = SheetsConverter.mdRow cs) ∧
    (SheetsConverter.arrayToMarkdownTable [["a".toList, "b".toList], ["c".toList]] =
      "| a | b |\n| --- | --- |\n| c |  |".toList) := by
  refine ⟨?_, ?_, by decide⟩
  · intro data hne l hl
    rcases data with _ | ⟨r0, rest⟩
    · exact absurd rfl hne
    · simp only [SheetsConverter.arrayToMarkdownTableLines] at hl
      rcases List.mem_cons.mp hl with h | h
      · exact ⟨_, by simp, h⟩
      · rcases List.mem_cons.mp h with h2 | h2
        · exact ⟨List.replicate (SheetsConverter.maxColsOf (r0 :: rest)) "---".toList,
            by simp, h2⟩
        · rcases List.mem_map.mp h2 with ⟨r, _, hr⟩
          exact ⟨_, by simp, hr.symm⟩
  · intro rowData l hl
    unfold SheetsConverter.rowDataToMarkdownTable at hl
    by_cases hmc : SheetsConverter.maxColsRD rowData = 0
    · rw [if_pos hmc] at hl
      simp at hl
    · rw [if_neg hmc] at hl
      rcases rowData with _ | ⟨r0, rest⟩
      · simp at hl
      · rcases List.mem_cons.mp hl with h | h
        · exact ⟨_, by simp [SheetsConverter.rowLineRD], h⟩
        · rcases List.mem_cons.mp h with h2 | h2
          · exact ⟨List.replicate (SheetsConverter.maxColsRD (r0 :: rest)) "---".toList,
              by simp, h2⟩
          · rcases List.mem_map.mp h2 with ⟨r, _, hr⟩
            exact ⟨_, by simp [SheetsConverter.rowLineRD], hr.symm⟩

/-- C10 (witness): the data row rendered for the short row `["c"]` of the
ragged grid is a pipe row of exactly 2 cells. -/
theorem c10_witness :
    ∃ cs : List Str, cs.length = SheetsConverter.maxColsOf [["a".toList, "b".toList], ["c".toList]] ∧
      "| c |  |".toList = SheetsConverter.mdRow cs :=
  c10_rectangular_rows.1 [["a".toList, "b".toList], ["c".toList]] (by decide)
    ("| c |  |".toList) (by decide)

/-! ### C2: sheet table round trip -/

theorem inner_join (cells : List Str) (hne : cells ≠ []) :
    ' ' :: joinWith " | ".toList cells ++ [' '] =
      joinWith ['|'] (cells.map (fun c => ' ' :: c ++ [' '])) := by
  induction cells with
  | nil => exact absurd rfl hne
  | cons c rest ih =>
    cases rest with
    | nil => simp [joinWith]
    | cons c2 rest2 =>
      have h1 : joinWith " | ".toList (c :: c2 :: rest2) =
          c ++ " | ".toList ++ joinWith " | ".toList (c2 :: rest2) := by simp [joinWith]
      have h2 : joinWith ['|'] ((c :: c2 :: rest2).map (fun c => ' ' :: c ++ [' '])) =
          (' ' :: c ++ [' ']) ++ ['|'] ++
            joinWith ['|'] ((c2 :: rest2).map (fun c => ' ' :: c ++ [' '])) := by
        simp [joinWith]
      rw [h1, h2, ← ih (by simp)]
      simp

theorem mdRow_decomp (cells : List Str) :
    SheetsConverter.mdRow cells = '|' :: (' ' :: joinWith " | ".toList cells ++ [' ']) ++ ['|'] := by
  unfold SheetsConverter.mdRow
  simp

theorem mdRow_head (cells : List Str) : (SheetsConverter.mdRow cells).head? = some '|' := by
  rw [mdRow_decomp]
  rfl

theorem mdRow_last (cells : List Str) : (SheetsConverter.mdRow cells).getLast? = some '|' := by
  rw [mdRow_decomp, ← List.cons_append]
  exact List.getLast?_concat _

theorem mem_mdRow (cells : List Str) (ch : Char) (h : ch ∈ SheetsConverter.mdRow cells) :
    ch = '|' ∨ ch = ' ' ∨ ∃ c ∈ cells, ch ∈ c := by
  rw [mdRow_decomp] at h
  rcases List.mem_cons.mp h with h1 | h1
  · exact Or.inl h1
  · rcases List.mem_append.mp h1 with h2 | h2
    · rcases List.mem_cons.mp h2 with h3 | h3
      · exact Or.inr (Or.inl h3)
      · rcases List.mem_append.mp h3 with h4 | h4
        · rcases mem_joinWith _ _ _ h4 with h5 | h5
          · have h6 : ch = ' ' ∨ ch = '|' ∨ ch = ' ' := by simpa using h5
            rcases h6 with h6 | h6 | h6 <;> simp [h6]
          · exact Or.inr (Or.inr h5)
        · have h5 : ch = ' ' := by simpa using h4
          exact Or.inr (Or.inl h5)
    · have h3 : ch = '|' := by simpa using h2
      exact Or.inl h3

theorem trimStr_mdRow (cells : List Str) :
    trimStr (SheetsConverter.mdRow cells) = SheetsConverter.mdRow cells := by
  apply trimStr_eq_self
  · intro c hc
    rw [mdRow_head cells] at hc
    cases hc
    decide
  · intro c hc
    rw [mdRow_last cells] at hc
    cases hc
    decide

theorem mdRow_ne_nil (cells : List Str) : SheetsConverter.mdRow cells ≠ [] := by
  rw [mdRow_decomp]
  simp

theorem mdRow_inner (cells : List Str) :
    ((SheetsConverter.mdRow cells).drop 1).dropLast = ' ' :: joinWith " | ".toList cells ++ [' '] := by
  rw [mdRow_decomp, List.cons_append, List.drop_one, List.tail_cons]
  exact List.dropLast_concat

theorem maxColsOf_rect (data : List (List Str)) (cols : Nat) (hne : data ≠ [])
    (hrect : ∀ r ∈ data, r.length = cols) : SheetsConverter.maxColsOf data = cols := by
  induction data with
  | nil => exact absurd rfl hne
  | cons r rest ih =>
    unfold SheetsConverter.maxColsOf
    cases rest with
    | nil =>
      simp [hrect r (by simp)]
    | cons r2 rest2 =>
      have h2 : SheetsConverter.maxColsOf (r2 :: rest2) = cols :=
        ih (by simp) (fun x hx => hrect x (by simp [hx]))
      unfold SheetsConverter.maxColsOf at h2
      simp only [List.foldr_cons] at h2 ⊢
      rw [h2, hrect r (by simp)]
      simp

theorem map_getD_range (r : List Str) (n : Nat) (hlen : r.length = n) :
    (List.range n).map (fun j => r.getD j []) = r := by
  induction r generalizing n with
  | nil => subst hlen; rfl
  | cons c t ih =>
    subst hlen
    rw [List.length_cons, List.range_succ_eq_map, List.map_cons, List.map_map]
    congr 1
    rw [show (fun j => (c :: t).getD j []) ∘ (· + 1) = fun j => t.getD j [] from ?_]
    · exact ih t.length rfl
    · funext j
      simp [List.getD]

theorem rowLine_eq (cols : Nat) (r : List Str) (hlen : r.length = cols)
    (hc : ∀ c ∈ r, '|' ∉ c) : SheetsConverter.rowLine cols r = SheetsConverter.mdRow r := by
  unfold SheetsConverter.rowLine
  congr 1
  have h1 : (fun j => SheetsConverter.escapeCell (r.getD j [])) =
      (fun c => SheetsConverter.escapeCell c) ∘ (fun j => r.getD j []) := rfl
  rw [h1, ← List.map_map, map_getD_range r cols hlen]
  have : ∀ c ∈ r, SheetsConverter.escapeCell c = c := fun c hcc =>
    escapeCell_eq_self c (hc c hcc)
  exact List.map_congr_left this |>.trans (List.map_id r)

theorem mem_joinWith_of_mem (sep : Str) (ls : List Str) (c : Str) (ch : Char)
    (hc : c ∈ ls) (hch : ch ∈ c) : ch ∈ joinWith sep ls := by
  induction ls with
  | nil => simp at hc
  | cons l rest ih =>
    cases rest with
    | nil =>
      have : c = l := by simpa using hc
      subst this
      simpa [joinWith] using hch
    | cons l2 rest2 =>
      have hj : joinWith sep (l :: l2 :: rest2) = l ++ sep ++ joinWith sep (l2 :: rest2) := by
        simp [joinWith]
      rw [hj]
      rcases List.mem_cons.mp hc with h | h
      · subst h
        simp [hch]
      · simp [ih h]

theorem newline_not_mem_mdRow (cells : List Str) (hc : ∀ c ∈ cells, '\n' ∉ c) :
    '\n' ∉ SheetsConverter.mdRow cells := by
  intro hmem
  rcases mem_mdRow cells '\n' hmem with h | h | ⟨c, hcc, hch⟩
  · simp at h
  · simp at h
  · exact hc c hcc hch

theorem parseRowCells_eval (l : Str) (h0 : trimStr l = l) (h1 : l.head? = some '|')
    (h2 : l.getLast? = some '|') :
    SheetsConverter.parseRowCells l =
      (if NoteAnalyzer.isSepLine l = true then none
       else some ((splitOnChar '|' ((l.drop 1).dropLast)).map
         (fun c => SheetsConverter.unescapeCell (trimStr c)))) := by
  unfold SheetsConverter.parseRowCells
  show (if ((trimStr l).head? == some '|' && (trimStr l).getLast? == some '|') = true then
      if NoteAnalyzer.isSepLine (trimStr l) = true then none
      else some ((splitOnChar '|' (((trimStr l).drop 1).dropLast)).map
        (fun c => SheetsConverter.unescapeCell (trimStr c)))
    else none) = _
  rw [h0, h1, h2, if_pos (by simp)]

theorem parseRowCells_mdRow (cells : List Str) (hne : cells ≠ [])
    (hcell : ∀ c ∈ cells, '|' ∉ c ∧ trimStr c = c)
    (hsolid : ∃ c ∈ cells, ∃ ch ∈ c, NoteAnalyzer.sepClassCh ch = false) :
    SheetsConverter.parseRowCells (SheetsConverter.mdRow cells) = some cells := by
  rw [parseRowCells_eval _ (trimStr_mdRow cells) (mdRow_head cells) (mdRow_last cells)]
  have hsep : NoteAnalyzer.isSepLine (SheetsConverter.mdRow cells) = false := by
    rcases hsolid with ⟨c, hc, ch, hch, hclass⟩
    have hmem : ch ∈ ((SheetsConverter.mdRow cells).drop 1).dropLast := by
      rw [mdRow_inner]
      have hj : ch ∈ joinWith " | ".toList cells := mem_joinWith_of_mem _ _ c ch hc hch
      exact List.mem_cons.mpr (Or.inr (List.mem_append.mpr (Or.inl hj)))
    have hall : (((SheetsConverter.mdRow cells).drop 1).dropLast).all NoteAnalyzer.sepClassCh
        = false := by
      rcases hcon : (((SheetsConverter.mdRow cells).drop 1).dropLast).all NoteAnalyzer.sepClassCh
      · rfl
      · have hcontr := List.all_eq_true.mp hcon ch hmem
        rw [hclass] at hcontr
        simp at hcontr
    unfold NoteAnalyzer.isSepLine
    rw [hall]
    simp
  rw [if_neg (by simp [hsep])]
  rw [mdRow_inner, inner_join cells hne,
    splitOnChar_joinWith '|' _ (by simp [hne]) ?pipes]
  case pipes =>
    intro l hl
    rcases List.mem_map.mp hl with ⟨c, hc, hpad⟩
    rw [← hpad]
    intro hcon
    rcases List.mem_cons.mp hcon with h | h
    · simp at h
    · rcases List.mem_append.mp h with h2 | h2
      · exact (hcell c hc).1 h2
      · simp at h2
  case _ =>
    rw [List.map_map]
    have hstep : ∀ c ∈ cells,
        ((fun c => SheetsConverter.unescapeCell (trimStr c)) ∘ fun c => ' ' :: c ++ [' ']) c
          = id c := by
      intro c hc
      show SheetsConverter.unescapeCell (trimStr (' ' :: c ++ [' '])) = c
      rw [trimStr_pad c (hcell c hc).2, unescapeCell_eq_self c (hcell c hc).1]
    rw [List.map_congr_left hstep, List.map_id]

theorem sepRowLine_isSep (n : Nat) (_hn : 0 < n) :
    NoteAnalyzer.isSepLine (SheetsConverter.sepRowLine n) = true := by
  unfold NoteAnalyzer.isSepLine SheetsConverter.sepRowLine
  rw [mdRow_head, mdRow_last]
  have hall : (((SheetsConverter.mdRow (List.replicate n "---".toList)).drop 1).dropLast).all
      NoteAnalyzer.sepClassCh = true := by
    rw [mdRow_inner, List.all_eq_true]
    intro ch hch
    rcases List.mem_cons.mp hch with h | h
    · rw [h]; decide
    · rcases List.mem_append.mp h with h2 | h2
      · rcases mem_joinWith _ _ _ h2 with h3 | h3
        · have h4 : ch = ' ' ∨ ch = '|' ∨ ch = ' ' := by simpa using h3
          rcases h4 with h4 | h4 | h4 <;> (rw [h4]; decide)
        · rcases h3 with ⟨l, hl, hchl⟩
          have hl3 : l = "---".toList := List.eq_of_mem_replicate hl
          rw [hl3] at hchl
          have h5 : ch = '-' := by simpa using hchl
          rw [h5]; decide
      · have h5 : ch = ' ' := by simpa using h2
        rw [h5]; decide
  rw [hall]
  have hlen : 3 ≤ (SheetsConverter.mdRow (List.replicate n "---".toList)).length := by
    rw [mdRow_decomp]
    simp
  simp at hlen
  simp [hlen]

theorem parseRowCells_sepRow (n : Nat) (hn : 0 < n) :
    SheetsConverter.parseRowCells (SheetsConverter.sepRowLine n) = none := by
  unfold SheetsConverter.sepRowLine
  rw [parseRowCells_eval _ (trimStr_mdRow _) (mdRow_head _) (mdRow_last _)]
  have h := sepRowLine_isSep n hn
  unfold SheetsConverter.sepRowLine at h
  rw [if_pos h]

theorem filterMap_parse_rows (cols : Nat) (hcols : 0 < cols) (rs : List (List Str))
    (hrect : ∀ r ∈ rs, r.length = cols)
    (hcell : ∀ r ∈ rs, ∀ c ∈ r, '|' ∉ c ∧ '\n' ∉ c ∧ trimStr c = c)
    (hsolid : ∀ r ∈ rs, ∃ c ∈ r, ∃ ch ∈ c, NoteAnalyzer.sepClassCh ch = false) :
    (rs.map (SheetsConverter.rowLine cols)).filterMap SheetsConverter.parseRowCells = rs := by
  induction rs with
  | nil => rfl
  | cons r rest ih =>
    rw [List.map_cons, List.filterMap_cons]
    have hr : SheetsConverter.rowLine cols r = SheetsConverter.mdRow r :=
      rowLine_eq cols r (hrect r (by simp)) (fun c hc => (hcell r (by simp) c hc).1)
    have hne : r ≠ [] := by
      intro hcon
      have := hrect r (by simp)
      rw [hcon] at this
      simp at this
      omega
    have hp : SheetsConverter.parseRowCells (SheetsConverter.rowLine cols r) = some r := by
      rw [hr]
      exact parseRowCells_mdRow r hne
        (fun c hc => ⟨(hcell r (by simp) c hc).1, (hcell r (by simp) c hc).2.2⟩)
        (hsolid r (by simp))
    rw [hp]
    rw [ih (fun x hx => hrect x (by simp [hx])) (fun x hx => hcell x (by simp [hx]))
      (fun x hx => hsolid x (by simp [hx]))]

/-- C2 (counterexample): on the ragged pipe-free grid `[["a","b"],["c"]]` the
round trip returns `[["a","b"],["c",""]]`, not the original grid — the
serializer pads short rows, so the claim fails without a rectangularity
hypothesis. -/
theorem c2_counterexample :
    SheetsConverter.markdownTableToArray (SheetsConverter.arrayToMarkdownTable
      [["a".toList, "b".toList], ["c".toList]]) ≠ [["a".toList, "b".toList], ["c".toList]] := by
  decide

/-- C2 (amended): for every rectangular grid (all rows of one positive width)
whose cells contain no pipe and no newline, are trim-fixed, and where every
row has at least one character outside the separator class (whitespace,
dashes, colons), `markdownTableToArray (arrayToMarkdownTable grid)` is `grid`
exactly. -/
theorem c2_roundtrip_rectangular (data : List (List Str)) (cols : Nat) (hcols : 0 < cols)
    (hrect : ∀ r ∈ data, r.length = cols)
    (hcell : ∀ r ∈ data, ∀ c ∈ r, '|' ∉ c ∧ '\n' ∉ c ∧ trimStr c = c)
    (hsolid : ∀ r ∈ data, ∃ c ∈ r, ∃ ch ∈ c, NoteAnalyzer.sepClassCh ch = false) :
    SheetsConverter.markdownTableToArray (SheetsConverter.arrayToMarkdownTable data) = data := by
  rcases data with _ | ⟨r0, rest⟩
  · decide
  · have hmc : SheetsConverter.maxColsOf (r0 :: rest) = cols :=
      maxColsOf_rect _ cols (by simp) hrect
    have harr : SheetsConverter.arrayToMarkdownTable (r0 :: rest) =
        joinWith ['\n'] (SheetsConverter.rowLine cols r0 :: SheetsConverter.sepRowLine cols ::
          rest.map (SheetsConverter.rowLine cols)) := by
      show joinWith ['\n'] (SheetsConverter.arrayToMarkdownTableLines (r0 :: rest)) = _
      unfold SheetsConverter.arrayToMarkdownTableLines
      rw [hmc]
    rw [harr]
    have hrow_eq : ∀ r ∈ (r0 :: rest), SheetsConverter.rowLine cols r = SheetsConverter.mdRow r :=
      fun r hr => rowLine_eq cols r (hrect r hr) (fun c hc => (hcell r hr c hc).1)
    have hnl : ∀ l ∈ (SheetsConverter.rowLine cols r0 :: SheetsConverter.sepRowLine cols ::
        rest.map (SheetsConverter.rowLine cols)), '\n' ∉ l := by
      intro l hl
      rcases List.mem_cons.mp hl with h | h
      · rw [h, hrow_eq r0 (by simp)]
        exact newline_not_mem_mdRow r0 (fun c hc => (hcell r0 (by simp) c hc).2.1)
      · rcases List.mem_cons.mp h with h2 | h2
        · rw [h2]
          unfold SheetsConverter.sepRowLine
          apply newline_not_mem_mdRow
          intro c hc
          rw [List.eq_of_mem_replicate hc]
          decide
        · rcases List.mem_map.mp h2 with ⟨r, hr, hline⟩
          rw [← hline, hrow_eq r (by simp [hr])]
          exact newline_not_mem_mdRow r (fun c hc => (hcell r (by simp [hr]) c hc).2.1)
    unfold SheetsConverter.markdownTableToArray
    rw [splitOnChar_joinWith '\n' _ (by simp) hnl]
    have hfilter : (SheetsConverter.rowLine cols r0 :: SheetsConverter.sepRowLine cols ::
        rest.map (SheetsConverter.rowLine cols)).filter (fun l => !(trimStr l).isEmpty) =
        SheetsConverter.rowLine cols r0 :: SheetsConverter.sepRowLine cols ::
          rest.map (SheetsConverter.rowLine cols) := by
      rw [List.filter_eq_self]
      intro l hl
      have htf : trimStr l = l ∧ l ≠ [] := by
        rcases List.mem_cons.mp hl with h | h
        · rw [h, hrow_eq r0 (by simp)]
          exact ⟨trimStr_mdRow r0, mdRow_ne_nil r0⟩
        · rcases List.mem_cons.mp h with h2 | h2
          · rw [h2]
            exact ⟨trimStr_mdRow _, mdRow_ne_nil _⟩
          · rcases List.mem_map.mp h2 with ⟨r, hr, hline⟩
            rw [← hline, hrow_eq r (by simp [hr])]
            exact ⟨trimStr_mdRow r, mdRow_ne_nil r⟩
      rw [htf.1]
      simpa using htf.2
    rw [hfilter]
    rw [List.filterMap_cons, List.filterMap_cons]
    have hp0 : SheetsConverter.parseRowCells (SheetsConverter.rowLine cols r0) = some r0 := by
      rw [hrow_eq r0 (by simp)]
      refine parseRowCells_mdRow r0 ?_ ?_ (hsolid r0 (by simp))
      · intro hcon
        have := hrect r0 (by simp)
        rw [hcon] at this
        simp at this
        omega
      · exact fun c hc => ⟨(hcell r0 (by simp) c hc).1, (hcell r0 (by simp) c hc).2.2⟩
    rw [hp0, parseRowCells_sepRow cols hcols]
    rw [filterMap_parse_rows cols hcols rest (fun x hx => hrect x (by simp [hx]))
      (fun x hx => hcell x (by simp [hx])) (fun x hx => hsolid x (by simp [hx]))]

/-- C2 (witness): the amended round trip on the concrete rectangular grid
`[["a","b"],["x","d"]]`. -/
theorem c2_witness :
    SheetsConverter.markdownTableToArray (SheetsConverter.arrayToMarkdownTable
      [["a".toList, "b".toList], ["x".toList, "d".toList]]) =
      [["a".toList, "b".toList], ["x".toList, "d".toList]] :=
  c2_roundtrip_rectangular [["a".toList, "b".toList], ["x".toList, "d".toList]] 2
    (by decide) (by decide) (by decide) (by decide)

/-! ### C3: slides round trip -/

theorem digitCh_isDigit (k : Nat) (hk : k < 10) : isDigitCh (digitCh k) = true := by
  interval_cases k <;> decide

theorem natStrAux_digits :
    ∀ (fuel n : Nat), ∀ c ∈ natStrAux fuel n, isDigitCh c = true := by
  intro fuel
  induction fuel with
  | zero => intro n c hc; simp [natStrAux] at hc
  | succ f ih =>
    intro n c hc
    rw [natStrAux] at hc
    by_cases h : n < 10
    · rw [if_pos h] at hc
      have hc2 : c = digitCh n := by simpa using hc
      rw [hc2]
      exact digitCh_isDigit n h
    · rw [if_neg h] at hc
      rcases List.mem_append.mp hc with h2 | h2
      · exact ih _ c h2
      · have hc2 : c = digitCh (n % 10) := by simpa using h2
        rw [hc2]
        exact digitCh_isDigit _ (Nat.mod_lt _ (by norm_num))

theorem natStr_digits (n : Nat) : ∀ c ∈ natStr n, isDigitCh c = true :=
  natStrAux_digits (n + 1) n

theorem natStr_ne_nil (n : Nat) : natStr n ≠ [] := by
  unfold natStr
  rw [natStrAux]
  by_cases h : n < 10
  · rw [if_pos h]; simp
  · rw [if_neg h]; simp

theorem digit_not_ws (c : Char) (h : isDigitCh c = true) : isJsWs c = false := by
  simp only [isDigitCh, Bool.and_eq_true, decide_eq_true_eq] at h
  simp only [isJsWs, Bool.or_eq_false_iff, Bool.and_eq_false_iff, decide_eq_false_iff_not]
  omega

theorem runText_mk (s : Str) (h : s ≠ []) :
    SlidesConverter.runText ⟨some ⟨s, none⟩⟩ = s := by
  unfold SlidesConverter.runText
  simp [h]

theorem extractText_mk (s : Str) (h : s ≠ []) :
    SlidesConverter.extractTextFromContent ⟨some [⟨some ⟨s, none⟩⟩]⟩ = s := by
  unfold SlidesConverter.extractTextFromContent
  simp [runText_mk s h]

theorem extractElemsGo_cons_text (s : Str) (els : List SlidesConverter.PageElement)
    (first : Bool) (title : Str) (body : List Str)
    (hs : s ≠ []) (htrim : trimStr s = s) (hnl : '\n' ∉ s) :
    SlidesConverter.extractElemsGo (SlidesConverter.mkTextElement s :: els) first title body =
      (if first = true then SlidesConverter.extractElemsGo els false s body
       else SlidesConverter.extractElemsGo els first title (body ++ [s])) := by
  have htext := extractText_mk s hs
  have hsplit : (splitOnChar '\n' s).filter (fun l => !(trimStr l).isEmpty) = [s] := by
    rw [splitOnChar_not_mem '\n' s hnl]
    simp [htrim, hs]
  rw [SlidesConverter.extractElemsGo]
  unfold SlidesConverter.mkTextElement
  simp only [htext, htrim]
  cases first with
  | true => simp [hs, htrim]
  | false => simp [hs, htrim, hsplit]

theorem extractElemsGo_bullets (bs : List Str) :
    ∀ (t : Str) (body : List Str),
      (∀ b ∈ bs, b ≠ [] ∧ trimStr b = b ∧ '\n' ∉ b) →
      SlidesConverter.extractElemsGo (bs.map SlidesConverter.mkTextElement) false t body =
        (t, body ++ bs) := by
  induction bs with
  | nil => intro t body _; simp [SlidesConverter.extractElemsGo]
  | cons b rest ih =>
    intro t body h
    obtain ⟨hb1, hb2, hb3⟩ := h b (by simp)
    rw [List.map_cons, extractElemsGo_cons_text b _ false t body hb1 hb2 hb3, if_neg (by simp)]
    rw [ih t (body ++ [b]) (fun x hx => h x (by simp [hx]))]
    simp

theorem extractSimple (t : Str) (bs : List Str)
    (ht : t ≠ [] ∧ trimStr t = t ∧ '\n' ∉ t)
    (hbs : ∀ b ∈ bs, b ≠ [] ∧ trimStr b = b ∧ '\n' ∉ b) :
    SlidesConverter.extractSlideContent (SlidesConverter.mkSimpleSlide t bs) = (t, bs, []) := by
  unfold SlidesConverter.extractSlideContent SlidesConverter.mkSimpleSlide
  simp only []
  rw [extractElemsGo_cons_text t _ true [] [] ht.1 ht.2.1 ht.2.2, if_pos rfl]
  rw [extractElemsGo_bullets bs t [] hbs]
  simp

theorem slideBodyLines_plain (bs : List Str)
    (h : ∀ b ∈ bs, (b ≠ [] ∧ trimStr b = b) ∧ b.head? ≠ some '|') :
    SlidesConverter.slideBodyLines bs = bs.map (fun b => '-' :: ' ' :: b) := by
  induction bs with
  | nil => rfl
  | cons b rest ih =>
    obtain ⟨⟨hb1, hb2⟩, hb3⟩ := h b (by simp)
    unfold SlidesConverter.slideBodyLines
    rw [List.filterMap_cons]
    have hpipe : (b.head? == some '|') = false := by simpa using hb3
    have htrim : (trimStr b).isEmpty = false := by
      rw [hb2]
      simpa using hb1
    simp only [hpipe, htrim, Bool.false_eq_true, if_false, Bool.not_false, if_true]
    unfold SlidesConverter.slideBodyLines at ih
    rw [ih (fun x hx => h x (by simp [hx]))]
    rfl

theorem slideBlock_mk (i n : Nat) (t : Str) (bs : List Str)
    (ht : t ≠ [] ∧ trimStr t = t ∧ '\n' ∉ t)
    (hbs : ∀ b ∈ bs, (b ≠ [] ∧ trimStr b = b ∧ '\n' ∉ b) ∧ b.head? ≠ some '|') :
    SlidesConverter.slideBlock i n (SlidesConverter.mkSimpleSlide t bs) =
      (("## Slide ".toList ++ natStr (i + 1) ++ ':' :: ' ' :: t) :: [] ::
        (if bs.isEmpty then [] else bs.map (fun b => '-' :: ' ' :: b) ++ [[]])) ++
      (if i < n - 1 then ["---".toList, []] else []) := by
  unfold SlidesConverter.slideBlock
  rw [extractSimple t bs ht (fun b hb => (hbs b hb).1)]
  simp only []
  rw [slideBodyLines_plain bs
    (fun b hb => ⟨⟨(hbs b hb).1.1, (hbs b hb).1.2.1⟩, (hbs b hb).2⟩)]
  have hhdr : ("## Slide ".toList ++ natStr (i + 1) ++
      (if !t.isEmpty then ':' :: ' ' :: t else [])) =
      "## Slide ".toList ++ natStr (i + 1) ++ ':' :: ' ' :: t := by
    rw [if_pos (by simpa using ht.1)]
  rw [hhdr]
  rcases hb : bs.isEmpty with _ | _
  · have hbs2 : ¬(bs.isEmpty = true) := by simp [hb]
    simp only [hb, if_neg hbs2, Bool.not_false, if_true]
    simp
  · have hbs2 : bs = [] := by simpa using hb
    subst hbs2
    simp

theorem digit_ne_nl (c : Char) (h : isDigitCh c = true) : ¬(c = Char.ofNat 10) := by
  intro hh
  rw [hh] at h
  exact absurd h (by decide)

theorem getLast_append_right (a b : Str) (h : b ≠ []) : (a ++ b).getLast? = b.getLast? := by
  rw [← List.head?_reverse, List.reverse_append, ← List.head?_reverse]
  cases hb : b.reverse with
  | nil => exact absurd (by simpa using hb) h
  | cons c t => rfl

theorem head_append_left (a b : Str) (h : a ≠ []) : (a ++ b).head? = a.head? := by
  cases a with
  | nil => exact absurd rfl h
  | cons c t => rfl

theorem matchSlideHeading_eval (k : Nat) (t : Str)
    (hth : ∀ c, t.head? = some c → isJsWs c = false) :
    SlidesConverter.matchSlideHeading ("## Slide ".toList ++ natStr k ++ ':' :: ' ' :: t) =
      some t := by
  obtain ⟨d, ds, hds⟩ := List.exists_cons_of_ne_nil (natStr_ne_nil k)
  have hdig : ∀ c ∈ natStr k, isDigitCh c = true := natStr_digits k
  have hshape : "## Slide ".toList ++ natStr k ++ ':' :: ' ' :: t =
      '#' :: '#' :: (' ' :: 'S' :: 'l' :: 'i' :: 'd' :: 'e' :: ' ' ::
        (natStr k ++ ':' :: ' ' :: t)) := by
    simp
  rw [hshape]
  unfold SlidesConverter.matchSlideHeading
  have hr1 : List.dropWhile isJsWs
      (' ' :: 'S' :: 'l' :: 'i' :: 'd' :: 'e' :: ' ' :: (natStr k ++ ':' :: ' ' :: t)) =
      'S' :: 'l' :: 'i' :: 'd' :: 'e' :: ' ' :: (natStr k ++ ':' :: ' ' :: t) := by
    rw [List.dropWhile_cons, if_pos (by decide), List.dropWhile_cons, if_neg (by decide)]
  have hci : ciStartsWith "slide".toList
      ('S' :: 'l' :: 'i' :: 'd' :: 'e' :: ' ' :: (natStr k ++ ':' :: ' ' :: t)) = true := by
    simp [ciStartsWith, lowerStr, seqStartsWith, lowerCh]
  have hdrop5 : List.drop 5
      ('S' :: 'l' :: 'i' :: 'd' :: 'e' :: ' ' :: (natStr k ++ ':' :: ' ' :: t)) =
      ' ' :: (natStr k ++ ':' :: ' ' :: t) := rfl
  have hr2 : List.dropWhile isJsWs (' ' :: (natStr k ++ ':' :: ' ' :: t)) =
      natStr k ++ ':' :: ' ' :: t := by
    rw [List.dropWhile_cons, if_pos (by decide)]
    apply dropWhile_eq_self_of_head
    intro c hc
    rw [head_append_left _ _ (natStr_ne_nil k), hds] at hc
    have hcd : d = c := by simpa using hc
    exact digit_not_ws c (hdig c (by rw [hds, ← hcd]; simp))
  have hr3 : List.dropWhile isDigitCh (natStr k ++ ':' :: ' ' :: t) = ':' :: ' ' :: t := by
    rw [dropWhile_append_all _ _ _ hdig, List.dropWhile_cons, if_neg (by decide)]
  have hr4 : List.dropWhile isJsWs (' ' :: t) = t := by
    rw [List.dropWhile_cons, if_pos (by decide)]
    exact dropWhile_eq_self_of_head _ _ hth
  simp only [hr1, hci, hdrop5, hr2, hr3, hr4]
  have hd : isDigitCh d = true := hdig d (by rw [hds]; simp)
  rw [hds]
  simp [hd]
  decide

theorem matchSlideHeading_none1 (c : Char) (r : Str) (h : ¬(c = '#')) :
    SlidesConverter.matchSlideHeading (c :: r) = none := by
  unfold SlidesConverter.matchSlideHeading
  split
  · rename_i rest heq
    exfalso
    apply h
    injection heq with h1 h2
  · rfl

theorem matchSlideHeading_none2 (c : Char) (r : Str) (h : ¬(c = '#')) :
    SlidesConverter.matchSlideHeading ('#' :: c :: r) = none := by
  unfold SlidesConverter.matchSlideHeading
  split
  · rename_i rest heq
    exfalso
    apply h
    injection heq with h1 h2
    injection h2 with h3 h4
  · rfl

theorem wsPlusCapture_ws_cons (w : Char) (x : Str) (hw : isJsWs w = true) (hx : x ≠ [])
    (hxh : ∀ c, x.head? = some c → isJsWs c = false) :
    wsPlusCapture (w :: x) = some x := by
  unfold wsPlusCapture
  simp only []
  rw [if_pos (by simp [hw, hx])]
  rw [List.dropWhile_cons, if_pos hw, dropWhile_eq_self_of_head _ _ hxh]
  cases x with
  | nil => exact absurd rfl hx
  | cons a t => rfl

theorem wsPlusCapture_none_nonws (c : Char) (r : Str) (h : isJsWs c = false) :
    wsPlusCapture (c :: r) = none := by
  unfold wsPlusCapture
  simp only []
  rw [if_neg (by simp [h])]

theorem matchHashHeading_none_nonhash (l : Str) (maxL : Nat) (h : l.head? ≠ some '#') :
    matchHashHeading maxL l = none := by
  have hcount : hashCount l = 0 := by
    unfold hashCount
    cases l with
    | nil => rfl
    | cons c r =>
      have hc : ¬(c = '#') := fun hh => h (by simp [hh])
      rw [List.takeWhile_cons, if_neg (by simpa using hc)]
      rfl
  unfold matchHashHeading
  rw [hcount]
  rfl

theorem matchHashHeading_title (title : Str) (ht : title ≠ [])
    (hth : ∀ c, title.head? = some c → isJsWs c = false) :
    matchHashHeading 6 ('#' :: ' ' :: title) = some (1, title) := by
  have hcount : hashCount ('#' :: ' ' :: title) = 1 := by
    unfold hashCount
    rw [List.takeWhile_cons, if_pos (by decide), List.takeWhile_cons, if_neg (by decide)]
    rfl
  unfold matchHashHeading
  rw [hcount]
  simp only []
  rw [if_pos (by decide)]
  have hdrop : List.drop 1 ('#' :: ' ' :: title) = ' ' :: title := rfl
  rw [hdrop, wsPlusCapture_ws_cons ' ' title (by decide) ht hth]

theorem matchUl_none_head (c : Char) (r : Str) (h1 : ¬(c = '-')) (h2 : ¬(c = '*')) :
    matchUl (c :: r) = none := by
  unfold matchUl
  simp only []
  rw [if_neg (by simp [h1, h2])]

theorem matchUl_bullet (b : Str) (hb : b ≠ [])
    (hbh : ∀ c, b.head? = some c → isJsWs c = false) :
    matchUl ('-' :: ' ' :: b) = some b := by
  unfold matchUl
  simp only []
  rw [if_pos (by decide), wsPlusCapture_ws_cons ' ' b (by decide) hb hbh]

theorem matchUl_meta (n : Nat) :
    matchUl ('*' :: (natStr n ++ " slides*".toList)) = none := by
  unfold matchUl
  simp only []
  rw [if_pos (by decide)]
  obtain ⟨d, ds, hds⟩ := List.exists_cons_of_ne_nil (natStr_ne_nil n)
  have hd : isDigitCh d = true := natStr_digits n d (by rw [hds]; simp)
  rw [hds, List.cons_append, wsPlusCapture_none_nonws d _ (digit_not_ws d hd)]

theorem containsSeq_true_append (pat a s : Str) (h : containsSeq pat s = true) :
    containsSeq pat (a ++ s) = true := by
  induction a with
  | nil => exact h
  | cons c t ih =>
    rw [List.cons_append, containsSeq]
    simp [ih]

theorem containsSeq_nodash_pre (a s : Str) (ha : ∀ c ∈ a, ¬(c = '-')) :
    containsSeq "---".toList (a ++ s) = containsSeq "---".toList s := by
  induction a with
  | nil => rfl
  | cons c t ih =>
    rw [List.cons_append, containsSeq_triple_cons c (ha c (by simp)),
      ih (fun x hx => ha x (by simp [hx]))]

theorem parseSecStep_header (tb : Str × List Str) (k : Nat) (t : Str)
    (htr : trimStr t = t) :
    SlidesConverter.parseSecStep tb
      ("## Slide ".toList ++ natStr k ++ ':' :: ' ' :: t) = (t, tb.2) := by
  unfold SlidesConverter.parseSecStep
  rw [matchSlideHeading_eval k t (trimFixed_head t htr)]
  simp only []
  rw [htr]

theorem parseSecStep_bullet (t : Str) (acc : List Str) (b : Str)
    (hb : b ≠ []) (htr : trimStr b = b) :
    SlidesConverter.parseSecStep (t, acc) ('-' :: ' ' :: b) = (t, acc ++ [b]) := by
  unfold SlidesConverter.parseSecStep
  rw [matchSlideHeading_none1 '-' _ (by decide)]
  simp only []
  rw [matchHashHeading_none_nonhash _ 6 (by simp)]
  simp only []
  unfold SlidesConverter.parseSecRest
  rw [matchUl_bullet b hb (trimFixed_head b htr)]
  simp only []
  rw [htr]

theorem parseSecStep_title (title : Str) (ht : title ≠ []) (htr : trimStr title = title) :
    SlidesConverter.parseSecStep ([], []) ('#' :: ' ' :: title) = (title, []) := by
  unfold SlidesConverter.parseSecStep
  rw [matchSlideHeading_none2 ' ' title (by decide)]
  simp only []
  rw [matchHashHeading_title title ht (trimFixed_head title htr)]
  simp only []
  rw [if_pos (by decide), htr]

theorem parseSecStep_meta (title : Str) (acc : List Str) (n : Nat) :
    SlidesConverter.parseSecStep (title, acc)
      ('*' :: (natStr n ++ " slides*".toList)) = (title, acc) := by
  unfold SlidesConverter.parseSecStep
  rw [matchSlideHeading_none1 '*' _ (by decide)]
  simp only []
  rw [matchHashHeading_none_nonhash _ 6 (by simp)]
  simp only []
  unfold SlidesConverter.parseSecRest
  rw [matchUl_meta n]
  simp only []
  have h1 : ('*' :: (natStr n ++ " slides*".toList)).head? = some '*' := rfl
  have h2 : ('*' :: (natStr n ++ " slides*".toList)).getLast? = some '*' := by
    have e1 : '*' :: (natStr n ++ " slides*".toList) =
        ['*'] ++ (natStr n ++ " slides*".toList) := rfl
    rw [e1, getLast_append_right _ _ (by simp [natStr_ne_nil n]),
      getLast_append_right _ _ (by decide)]
    decide
  have h3 : containsSeq "slide".toList ('*' :: (natStr n ++ " slides*".toList)) = true := by
    have e1 : '*' :: (natStr n ++ " slides*".toList) =
        ('*' :: natStr n) ++ " slides*".toList := by simp
    rw [e1]
    exact containsSeq_true_append _ _ _ (by decide)
  rw [h1, h2, h3]
  simp

theorem foldl_bullets (bs : List Str) :
    ∀ (t : Str) (acc : List Str),
      (∀ b ∈ bs, b ≠ [] ∧ trimStr b = b) →
      List.foldl SlidesConverter.parseSecStep (t, acc)
        (bs.map (fun b => '-' :: ' ' :: b)) = (t, acc ++ bs) := by
  induction bs with
  | nil => intro t acc _; simp
  | cons b rest ih =>
    intro t acc h
    obtain ⟨hb1, hb2⟩ := h b (by simp)
    rw [List.map_cons, List.foldl_cons, parseSecStep_bullet t acc b hb1 hb2,
      ih t (acc ++ [b]) (fun x hx => h x (by simp [hx]))]
    simp

theorem joinWith_head (sep l : Str) (rest : List Str) (hl : l ≠ []) :
    (joinWith sep (l :: rest)).head? = l.head? := by
  cases rest with
  | nil => rfl
  | cons r rs =>
    show (l ++ sep ++ joinWith sep (r :: rs)).head? = l.head?
    rw [head_append_left _ _ (by simp [hl]), head_append_left _ _ hl]

theorem joinWith_last (sep l : Str) (ls : List Str) (hl : l ≠ []) :
    (joinWith sep (ls ++ [l])).getLast? = l.getLast? := by
  cases ls with
  | nil => rfl
  | cons a as =>
    rw [joinWith_append sep (a :: as) [l] (by simp) (by simp),
      show joinWith sep [l] = l from rfl,
      getLast_append_right _ _ hl]

theorem getLast_hdr (k : Nat) (t : Str) (ht : t ≠ []) :
    ("## Slide ".toList ++ natStr k ++ ':' :: ' ' :: t).getLast? = t.getLast? := by
  rw [getLast_append_right _ _ (by simp),
    show (':' :: ' ' :: t) = [':', ' '] ++ t from rfl,
    getLast_append_right _ _ ht]

theorem trimStr_hdr (k : Nat) (t : Str) (ht : t ≠ []) (htr : trimStr t = t) :
    trimStr ("## Slide ".toList ++ natStr k ++ ':' :: ' ' :: t) =
      "## Slide ".toList ++ natStr k ++ ':' :: ' ' :: t := by
  apply trimStr_eq_self
  · intro c hc
    have hc2 : c = '#' := by
      have : ("## Slide ".toList ++ natStr k ++ ':' :: ' ' :: t).head? = some '#' := rfl
      rw [this] at hc
      injection hc with h1
      exact h1.symm
    rw [hc2]
    decide
  · intro c hc
    rw [getLast_hdr k t ht] at hc
    exact trimFixed_last t htr c hc

theorem trimStr_bullet (b : Str) (hb : b ≠ []) (htr : trimStr b = b) :
    trimStr ('-' :: ' ' :: b) = '-' :: ' ' :: b := by
  apply trimStr_eq_self
  · intro c hc
    have hc2 : c = '-' := by injection hc with h1; exact h1.symm
    rw [hc2]
    decide
  · intro c hc
    rw [show ('-' :: ' ' :: b) = ['-', ' '] ++ b from rfl,
      getLast_append_right _ _ hb] at hc
    exact trimFixed_last b htr c hc

theorem trimStr_h0 (title : Str) (ht : title ≠ []) (htr : trimStr title = title) :
    trimStr ('#' :: ' ' :: title) = '#' :: ' ' :: title := by
  apply trimStr_eq_self
  · intro c hc
    have hc2 : c = '#' := by injection hc with h1; exact h1.symm
    rw [hc2]
    decide
  · intro c hc
    rw [show ('#' :: ' ' :: title) = ['#', ' '] ++ title from rfl,
      getLast_append_right _ _ ht] at hc
    exact trimFixed_last title htr c hc

theorem meta_getLast (n : Nat) :
    ('*' :: (natStr n ++ " slides*".toList)).getLast? = some '*' := by
  rw [show ('*' :: (natStr n ++ " slides*".toList)) =
      ['*'] ++ (natStr n ++ " slides*".toList) from rfl,
    getLast_append_right _ _ (by simp [natStr_ne_nil n]),
    getLast_append_right _ _ (by decide)]
  decide

theorem trimStr_meta (n : Nat) :
    trimStr ('*' :: (natStr n ++ " slides*".toList)) =
      '*' :: (natStr n ++ " slides*".toList) := by
  apply trimStr_eq_self
  · intro c hc
    have hc2 : c = '*' := by injection hc with h1; exact h1.symm
    rw [hc2]
    decide
  · intro c hc
    rw [meta_getLast n] at hc
    have hc2 : c = '*' := by injection hc with h1; exact h1.symm
    rw [hc2]
    decide

theorem nl_not_mem_hdr (k : Nat) (t : Str) (h : '\n' ∉ t) :
    '\n' ∉ "## Slide ".toList ++ natStr k ++ ':' :: ' ' :: t := by
  intro hm
  rcases List.mem_append.mp hm with h1 | h2
  · rcases List.mem_append.mp h1 with h3 | h4
    · exact absurd h3 (by decide)
    · exact absurd (natStr_digits k '\n' h4) (by decide)
  · rcases List.mem_cons.mp h2 with h3 | h4
    · exact absurd h3 (by decide)
    · rcases List.mem_cons.mp h4 with h5 | h6
      · exact absurd h5 (by decide)
      · exact h h6

theorem nl_not_mem_bullet (b : Str) (h : '\n' ∉ b) : '\n' ∉ '-' :: ' ' :: b := by
  intro hm
  rcases List.mem_cons.mp hm with h3 | h4
  · exact absurd h3 (by decide)
  · rcases List.mem_cons.mp h4 with h5 | h6
    · exact absurd h5 (by decide)
    · exact h h6

theorem nl_not_mem_h0 (title : Str) (h : '\n' ∉ title) : '\n' ∉ '#' :: ' ' :: title := by
  intro hm
  rcases List.mem_cons.mp hm with h3 | h4
  · exact absurd h3 (by decide)
  · rcases List.mem_cons.mp h4 with h5 | h6
    · exact absurd h5 (by decide)
    · exact h h6

theorem nl_not_mem_meta (n : Nat) : '\n' ∉ '*' :: (natStr n ++ " slides*".toList) := by
  intro hm
  rcases List.mem_cons.mp hm with h1 | h2
  · exact absurd h1 (by decide)
  · rcases List.mem_append.mp h2 with h3 | h4
    · exact absurd (natStr_digits n '\n' h3) (by decide)
    · exact absurd h4 (by decide)

theorem tri_hdr (k : Nat) (t : Str) (h : containsSeq "---".toList t = false) :
    containsSeq "---".toList ("## Slide ".toList ++ natStr k ++ ':' :: ' ' :: t) = false := by
  rw [List.append_assoc, containsSeq_nodash_pre _ _ (by decide),
    containsSeq_triple_digits _ (natStr_digits k),
    containsSeq_triple_cons ':' (by decide), containsSeq_triple_cons ' ' (by decide), h]

theorem tri_bullet (b : Str) (h : containsSeq "---".toList b = false) :
    containsSeq "---".toList ('-' :: ' ' :: b) = false := by
  rw [containsSeq_triple_cons2 '-' ' ' (by decide), h]

theorem tri_h0 (title : Str) (h : containsSeq "---".toList title = false) :
    containsSeq "---".toList ('#' :: ' ' :: title) = false := by
  rw [containsSeq_triple_cons '#' (by decide), containsSeq_triple_cons ' ' (by decide), h]

theorem tri_meta (n : Nat) :
    containsSeq "---".toList ('*' :: (natStr n ++ " slides*".toList)) = false := by
  rw [containsSeq_triple_cons '*' (by decide),
    containsSeq_triple_digits _ (natStr_digits n)]
  decide

theorem parseSection_of (sec t : Str) (bs : List Str) (LL : List Str)
    (hl : (splitOnChar '\n' (trimStr sec)).filter (fun l => !(trimStr l).isEmpty) = LL)
    (hLL : LL ≠ [])
    (hfold : LL.foldl SlidesConverter.parseSecStep ([], []) = (t, bs))
    (ht : t ≠ []) :
    SlidesConverter.parseSection sec = some (t, bs) := by
  unfold SlidesConverter.parseSection
  simp only [hl, hfold]
  have h1 : LL.isEmpty = false := by simpa using hLL
  simp [h1, ht]

theorem parseSection_slide (k : Nat) (t : Str) (bs : List Str) (W : Str)
    (ht : t ≠ []) (htr : trimStr t = t) (hnt : '\n' ∉ t)
    (hbs : ∀ b ∈ bs, b ≠ [] ∧ trimStr b = b ∧ '\n' ∉ b)
    (hbne : bs ≠ [])
    (hW : ∀ c ∈ W, isJsWs c = true) :
    SlidesConverter.parseSection
      (joinWith ['\n'] (("## Slide ".toList ++ natStr k ++ ':' :: ' ' :: t) :: [] ::
        bs.map (fun b => '-' :: ' ' :: b)) ++ W) = some (t, bs) := by
  obtain ⟨bs0, bl, hbsplit⟩ := (List.eq_nil_or_concat bs).resolve_left hbne
  have hbl := hbs bl (by rw [hbsplit]; simp)
  have htrim : trimStr (joinWith ['\n']
      (("## Slide ".toList ++ natStr k ++ ':' :: ' ' :: t) :: [] ::
        bs.map (fun b => '-' :: ' ' :: b)) ++ W) =
      joinWith ['\n'] (("## Slide ".toList ++ natStr k ++ ':' :: ' ' :: t) :: [] ::
        bs.map (fun b => '-' :: ' ' :: b)) := by
    rw [trimStr_append_ws _ W hW]
    apply trimStr_eq_self
    · intro c hc
      rw [joinWith_head _ _ _ (by simp)] at hc
      have : c = '#' := by
        have hh : ("## Slide ".toList ++ natStr k ++ ':' :: ' ' :: t).head? = some '#' := rfl
        rw [hh] at hc
        injection hc with h1
        exact h1.symm
      rw [this]
      decide
    · intro c hc
      have hLshape : ("## Slide ".toList ++ natStr k ++ ':' :: ' ' :: t) :: [] ::
          bs.map (fun b => '-' :: ' ' :: b) =
          (("## Slide ".toList ++ natStr k ++ ':' :: ' ' :: t) :: [] ::
            bs0.map (fun b => '-' :: ' ' :: b)) ++ ['-' :: ' ' :: bl] := by
        rw [hbsplit]
        simp
      rw [hLshape, joinWith_last _ _ _ (by simp)] at hc
      rw [show ('-' :: ' ' :: bl) = ['-', ' '] ++ bl from rfl,
        getLast_append_right _ _ hbl.1] at hc
      exact trimFixed_last bl hbl.2.1 c hc
  have hsplit : splitOnChar '\n' (joinWith ['\n']
      (("## Slide ".toList ++ natStr k ++ ':' :: ' ' :: t) :: [] ::
        bs.map (fun b => '-' :: ' ' :: b))) =
      ("## Slide ".toList ++ natStr k ++ ':' :: ' ' :: t) :: [] ::
        bs.map (fun b => '-' :: ' ' :: b) := by
    apply splitOnChar_joinWith _ _ (by simp)
    intro l hl
    rcases List.mem_cons.mp hl with h1 | h2
    · rw [h1]; exact nl_not_mem_hdr k t hnt
    · rcases List.mem_cons.mp h2 with h3 | h4
      · rw [h3]; simp
      · obtain ⟨b, hbmem, hbeq⟩ := List.mem_map.mp h4
        rw [← hbeq]
        exact nl_not_mem_bullet b (hbs b hbmem).2.2
  have hfilter : (("## Slide ".toList ++ natStr k ++ ':' :: ' ' :: t) :: [] ::
        bs.map (fun b => '-' :: ' ' :: b)).filter (fun l => !(trimStr l).isEmpty) =
      ("## Slide ".toList ++ natStr k ++ ':' :: ' ' :: t) ::
        bs.map (fun b => '-' :: ' ' :: b) := by
    rw [List.filter_cons, List.filter_cons]
    have hp1 : (!(trimStr ("## Slide ".toList ++ natStr k ++ ':' :: ' ' :: t)).isEmpty) = true := by
      rw [trimStr_hdr k t ht htr]
      simp
    have hp2 : (!(trimStr ([] : Str)).isEmpty) = false := by decide
    rw [if_pos hp1, if_neg (by rw [hp2]; simp)]
    congr 1
    apply List.filter_eq_self.mpr
    intro a ha
    obtain ⟨b, hbmem, hbeq⟩ := List.mem_map.mp ha
    rw [← hbeq, trimStr_bullet b (hbs b hbmem).1 (hbs b hbmem).2.1]
    simp
  apply parseSection_of _ t bs
    (("## Slide ".toList ++ natStr k ++ ':' :: ' ' :: t) ::
      bs.map (fun b => '-' :: ' ' :: b))
  · rw [htrim, hsplit, hfilter]
  · simp
  · rw [List.foldl_cons, parseSecStep_header ([], []) k t htr]
    exact foldl_bullets bs t [] (fun b hb => ⟨(hbs b hb).1, (hbs b hb).2.1⟩)
  · exact ht

theorem parseSection_hdr_only (k : Nat) (t : Str) (W : Str)
    (ht : t ≠ []) (htr : trimStr t = t) (hnt : '\n' ∉ t)
    (hW : ∀ c ∈ W, isJsWs c = true) :
    SlidesConverter.parseSection
      (("## Slide ".toList ++ natStr k ++ ':' :: ' ' :: t) ++ W) = some (t, []) := by
  have htrim : trimStr (("## Slide ".toList ++ natStr k ++ ':' :: ' ' :: t) ++ W) =
      "## Slide ".toList ++ natStr k ++ ':' :: ' ' :: t := by
    rw [trimStr_append_ws _ W hW]
    exact trimStr_hdr k t ht htr
  have hsplit : splitOnChar '\n' ("## Slide ".toList ++ natStr k ++ ':' :: ' ' :: t) =
      ["## Slide ".toList ++ natStr k ++ ':' :: ' ' :: t] :=
    splitOnChar_not_mem _ _ (nl_not_mem_hdr k t hnt)
  apply parseSection_of _ t []
    ["## Slide ".toList ++ natStr k ++ ':' :: ' ' :: t]
  · rw [htrim, hsplit, List.filter_cons]
    rw [if_pos (by rw [trimStr_hdr k t ht htr]; simp)]
    rfl
  · simp
  · rw [List.foldl_cons, parseSecStep_header ([], []) k t htr]
    rfl
  · exact ht

theorem parseSection_preamble (title : Str) (n : Nat) (W : Str)
    (ht : title ≠ []) (htr : trimStr title = title) (hnt : '\n' ∉ title)
    (hW : ∀ c ∈ W, isJsWs c = true) :
    SlidesConverter.parseSection
      (joinWith ['\n'] [('#' :: ' ' :: title), [],
        ('*' :: (natStr n ++ " slides*".toList))] ++ W) = some (title, []) := by
  have htrim : trimStr (joinWith ['\n'] [('#' :: ' ' :: title), [],
      ('*' :: (natStr n ++ " slides*".toList))] ++ W) =
      joinWith ['\n'] [('#' :: ' ' :: title), [],
        ('*' :: (natStr n ++ " slides*".toList))] := by
    rw [trimStr_append_ws _ W hW]
    apply trimStr_eq_self
    · intro c hc
      rw [joinWith_head _ _ _ (by simp)] at hc
      have : c = '#' := by injection hc with h1; exact h1.symm
      rw [this]
      decide
    · intro c hc
      have hLshape : [('#' :: ' ' :: title), [],
          ('*' :: (natStr n ++ " slides*".toList))] =
          [('#' :: ' ' :: title), ([] : Str)] ++
            [('*' :: (natStr n ++ " slides*".toList))] := rfl
      rw [hLshape, joinWith_last _ _ _ (by simp), meta_getLast n] at hc
      have : c = '*' := by injection hc with h1; exact h1.symm
      rw [this]
      decide
  have hsplit : splitOnChar '\n' (joinWith ['\n'] [('#' :: ' ' :: title), [],
      ('*' :: (natStr n ++ " slides*".toList))]) =
      [('#' :: ' ' :: title), [], ('*' :: (natStr n ++ " slides*".toList))] := by
    apply splitOnChar_joinWith _ _ (by simp)
    intro l hl
    rcases List.mem_cons.mp hl with h1 | h2
    · rw [h1]; exact nl_not_mem_h0 title hnt
    · rcases List.mem_cons.mp h2 with h3 | h4
      · rw [h3]; simp
      · have h5 : l = '*' :: (natStr n ++ " slides*".toList) := by simpa using h4
        rw [h5]
        exact nl_not_mem_meta n
  apply parseSection_of _ title []
    [('#' :: ' ' :: title), ('*' :: (natStr n ++ " slides*".toList))]
  · rw [htrim, hsplit, List.filter_cons, List.filter_cons, List.filter_cons]
    rw [if_pos (by rw [trimStr_h0 title ht htr]; simp),
      if_neg (by decide),
      if_pos (by rw [trimStr_meta n]; simp)]
    rfl
  · simp
  · rw [List.foldl_cons, parseSecStep_title title ht htr,
      List.foldl_cons, parseSecStep_meta title [] n]
    rfl
  · exact ht

theorem joinWith_cons2 (sep x y : Str) (zs : List Str) :
    joinWith sep (x :: y :: zs) = x ++ sep ++ joinWith sep (y :: zs) := rfl

theorem joinWith_cons_head (sep : Str) (c : Char) (l0 : Str) (rest : List Str) :
    ∃ Y, joinWith sep ((c :: l0) :: rest) = c :: Y := by
  cases rest with
  | nil => exact ⟨l0, rfl⟩
  | cons r rs => exact ⟨l0 ++ sep ++ joinWith sep (r :: rs), rfl⟩

theorem slideBlock_shape (i n : Nat) (s : SlidesConverter.Slide) :
    ∃ (T : Str) (L : List Str), SlidesConverter.slideBlock i n s = ('#' :: T) :: L := by
  refine ⟨'#' :: ' ' :: 'S' :: 'l' :: 'i' :: 'd' :: 'e' :: ' ' ::
    (natStr (i + 1) ++ (if !(SlidesConverter.extractSlideContent s).1.isEmpty
      then ':' :: ' ' :: (SlidesConverter.extractSlideContent s).1 else [])),
    [] ::
      ((if (SlidesConverter.extractSlideContent s).2.1 = [] then []
        else SlidesConverter.slideBodyLines (SlidesConverter.extractSlideContent s).2.1 ++ [[]]) ++
        ((if (SlidesConverter.extractSlideContent s).2.2 = [] then []
          else ["> **Notes:** ".toList ++ (SlidesConverter.extractSlideContent s).2.2, []]) ++
          (if i < n - 1 then [['-', '-', '-'], []] else []))), ?_⟩
  unfold SlidesConverter.slideBlock
  simp

theorem c3_tail : ∀ (spec : List (Str × List Str)) (i n : Nat), spec ≠ [] →
    (∀ p ∈ spec, goodText p.1 ∧ ∀ b ∈ p.2, goodBullet b) →
    i + spec.length = n →
    (SlidesConverter.sdGo false []
      (joinWith ['\n'] (SlidesConverter.slidesBlocksGo
        (spec.map (fun p => SlidesConverter.mkSimpleSlide p.1 p.2)) i n))).filterMap
      SlidesConverter.parseSection = spec := by
  intro spec
  induction spec with
  | nil => intro i n h; exact absurd rfl h
  | cons p spec' ih =>
    intro i n _ hgood hlen
    obtain ⟨ht1, ht2, ht3, ht4⟩ := (hgood p (by simp)).1
    have hbul := (hgood p (by simp)).2
    have hbs : ∀ b ∈ p.2, (b ≠ [] ∧ trimStr b = b ∧ '\n' ∉ b) ∧ b.head? ≠ some '|' :=
      fun b hb => ⟨⟨(hbul b hb).1.1, (hbul b hb).1.2.1, (hbul b hb).1.2.2.1⟩, (hbul b hb).2⟩
    have hbs1 : ∀ b ∈ p.2, b ≠ [] ∧ trimStr b = b ∧ '\n' ∉ b := fun b hb => (hbs b hb).1
    have hbs3 : ∀ b ∈ p.2, containsSeq "---".toList b = false :=
      fun b hb => (hbul b hb).1.2.2.2
    cases spec' with
    | nil =>
      have hlast : ¬(i < n - 1) := by simp at hlen; omega
      simp only [List.map_cons, List.map_nil, SlidesConverter.slidesBlocksGo]
      rw [slideBlock_mk i n p.1 p.2 ⟨ht1, ht2, ht3⟩ hbs, if_neg hlast]
      by_cases hp2 : p.2.isEmpty
      · have hp2' : p.2 = [] := by simpa using hp2
        rw [if_pos hp2]
        have hjoin : joinWith ['\n']
            (((("## Slide ".toList ++ natStr (i + 1) ++ ':' :: ' ' :: p.1) :: [[]]) ++ []) ++ []) =
            ("## Slide ".toList ++ natStr (i + 1) ++ ':' :: ' ' :: p.1) ++ ['\n'] := by
          simp [joinWith]
        rw [hjoin]
        rw [sdGo_final _ (by rw [containsSeq_triple_append_nl, tri_hdr (i + 1) p.1 ht4]; decide)]
        rw [show ([] : Str).reverse ++
            (("## Slide ".toList ++ natStr (i + 1) ++ ':' :: ' ' :: p.1) ++ ['\n']) =
            ("## Slide ".toList ++ natStr (i + 1) ++ ':' :: ' ' :: p.1) ++ ['\n'] by simp]
        rw [List.filterMap_cons, parseSection_hdr_only (i + 1) p.1 ['\n'] ht1 ht2 ht3 (by decide)]
        have hpp : (p.1, ([] : List Str)) = p := by rw [← hp2']
        show [(p.1, ([] : List Str))] = [p]
        rw [hpp]
      · have hbne : p.2 ≠ [] := by simpa using hp2
        rw [if_neg (by simpa using hbne)]
        have hjoin : joinWith ['\n']
            (((("## Slide ".toList ++ natStr (i + 1) ++ ':' :: ' ' :: p.1) :: [] ::
              (p.2.map (fun b => '-' :: ' ' :: b) ++ [[]])) ++ []) ++ []) =
            joinWith ['\n'] (("## Slide ".toList ++ natStr (i + 1) ++ ':' :: ' ' :: p.1) ::
              [] :: p.2.map (fun b => '-' :: ' ' :: b)) ++ ['\n'] := by
          rw [List.append_nil, List.append_nil,
            show (("## Slide ".toList ++ natStr (i + 1) ++ ':' :: ' ' :: p.1) :: [] ::
              (p.2.map (fun b => '-' :: ' ' :: b) ++ [[]])) =
              (("## Slide ".toList ++ natStr (i + 1) ++ ':' :: ' ' :: p.1) :: [] ::
                p.2.map (fun b => '-' :: ' ' :: b)) ++ [[]] by simp,
            joinWith_append _ _ _ (by simp) (by simp)]
          simp [joinWith]
        rw [hjoin]
        have htriple : containsSeq "---".toList
            (joinWith ['\n'] (("## Slide ".toList ++ natStr (i + 1) ++ ':' :: ' ' :: p.1) ::
              [] :: p.2.map (fun b => '-' :: ' ' :: b))) = false := by
          apply containsSeq_triple_join _ (by simp)
          intro l hl
          rcases List.mem_cons.mp hl with h1 | h2
          · rw [h1]; exact tri_hdr (i + 1) p.1 ht4
          · rcases List.mem_cons.mp h2 with h3 | h4
            · rw [h3]; decide
            · obtain ⟨b, hbmem, hbeq⟩ := List.mem_map.mp h4
              rw [← hbeq]
              exact tri_bullet b (hbs3 b hbmem)
        rw [sdGo_final _ (by rw [containsSeq_triple_append_nl, htriple]; decide)]
        rw [show ([] : Str).reverse ++
            (joinWith ['\n'] (("## Slide ".toList ++ natStr (i + 1) ++ ':' :: ' ' :: p.1) ::
              [] :: p.2.map (fun b => '-' :: ' ' :: b)) ++ ['\n']) =
            joinWith ['\n'] (("## Slide ".toList ++ natStr (i + 1) ++ ':' :: ' ' :: p.1) ::
              [] :: p.2.map (fun b => '-' :: ' ' :: b)) ++ ['\n'] by simp]
        rw [List.filterMap_cons,
          parseSection_slide (i + 1) p.1 p.2 ['\n'] ht1 ht2 ht3 hbs1 hbne (by decide)]
        rfl
    | cons p2 rest2 =>
      have hlt : i < n - 1 := by simp at hlen; omega
      simp only [List.map_cons, SlidesConverter.slidesBlocksGo]
      rw [slideBlock_mk i n p.1 p.2 ⟨ht1, ht2, ht3⟩ hbs, if_pos hlt]
      obtain ⟨T, L, hshape2⟩ := slideBlock_shape (i + 1) n
        (SlidesConverter.mkSimpleSlide p2.1 p2.2)
      have hRshape : SlidesConverter.slidesBlocksGo
          (SlidesConverter.mkSimpleSlide p2.1 p2.2 :: rest2.map
            (fun p => SlidesConverter.mkSimpleSlide p.1 p.2)) (i + 1) n =
          ('#' :: T) :: (L ++ SlidesConverter.slidesBlocksGo
            (rest2.map (fun p => SlidesConverter.mkSimpleSlide p.1 p.2)) (i + 2) n) := by
        rw [SlidesConverter.slidesBlocksGo, hshape2]
        rfl
      obtain ⟨Y, hY⟩ := joinWith_cons_head ['\n'] '#' T
        (L ++ SlidesConverter.slidesBlocksGo
          (rest2.map (fun p => SlidesConverter.mkSimpleSlide p.1 p.2)) (i + 2) n)
      rw [hshape2]
      by_cases hp2 : p.2.isEmpty
      · have hp2' : p.2 = [] := by simpa using hp2
        rw [if_pos hp2]
        rw [show ((("## Slide ".toList ++ natStr (i + 1) ++ ':' :: ' ' :: p.1) ::
            [] :: ([] : List Str)) ++ ["---".toList, []]) ++
            (('#' :: T) :: L ++ SlidesConverter.slidesBlocksGo
              (rest2.map (fun p => SlidesConverter.mkSimpleSlide p.1 p.2)) (i + 2) n) =
            ("## Slide ".toList ++ natStr (i + 1) ++ ':' :: ' ' :: p.1) :: [] ::
              ("---".toList :: [] :: ('#' :: T) ::
                (L ++ SlidesConverter.slidesBlocksGo
                  (rest2.map (fun p => SlidesConverter.mkSimpleSlide p.1 p.2)) (i + 2) n))
          from by simp]
        rw [show joinWith ['\n'] (("## Slide ".toList ++ natStr (i + 1) ++ ':' :: ' ' :: p.1) ::
            [] :: ("---".toList :: [] :: ('#' :: T) ::
              (L ++ SlidesConverter.slidesBlocksGo
                (rest2.map (fun p => SlidesConverter.mkSimpleSlide p.1 p.2)) (i + 2) n))) =
            (("## Slide ".toList ++ natStr (i + 1) ++ ':' :: ' ' :: p.1) ++ ['\n']) ++
              '\n' :: '-' :: '-' :: '-' :: '\n' :: '\n' ::
              joinWith ['\n'] (('#' :: T) ::
                (L ++ SlidesConverter.slidesBlocksGo
                  (rest2.map (fun p => SlidesConverter.mkSimpleSlide p.1 p.2)) (i + 2) n))
          from by
            rw [joinWith_cons2, joinWith_cons2, joinWith_cons2, joinWith_cons2]
            simp]
        rw [sdGo_until_sep _
          (by rw [containsSeq_triple_append_nl, tri_hdr (i + 1) p.1 ht4]; decide) [] _]
        simp only [List.reverse_nil, List.nil_append]
        rw [sdGo_skip_nl, sdGo_skip_nl, hY, sdGo_skip_exit _ '#' _ (by decide), ← hY]
        rw [← hRshape,
          show (SlidesConverter.mkSimpleSlide p2.1 p2.2 :: List.map
              (fun p => SlidesConverter.mkSimpleSlide p.1 p.2) rest2) =
            List.map (fun p => SlidesConverter.mkSimpleSlide p.1 p.2) (p2 :: rest2)
          from by simp]
        rw [List.filterMap_cons]
        rw [show (("## Slide ".toList ++ natStr (i + 1) ++ ':' :: ' ' :: p.1) ++ ['\n']) ++ ['\n'] =
            ("## Slide ".toList ++ natStr (i + 1) ++ ':' :: ' ' :: p.1) ++ ['\n', '\n']
          from by simp]
        rw [parseSection_hdr_only (i + 1) p.1 ['\n', '\n'] ht1 ht2 ht3 (by decide)]
        rw [ih (i + 1) n (by simp) (fun q hq => hgood q (by simp [hq]))
          (by simp at hlen ⊢; omega)]
        try rfl
        show ((p.1, ([] : List Str)) :: (p2 :: rest2)) = p :: p2 :: rest2
        rw [show (p.1, ([] : List Str)) = p from by rw [← hp2']]
      · have hbne : p.2 ≠ [] := by simpa using hp2
        rw [if_neg hp2]
        rw [show ((("## Slide ".toList ++ natStr (i + 1) ++ ':' :: ' ' :: p.1) ::
            [] :: (List.map (fun b => '-' :: ' ' :: b) p.2 ++ [[]])) ++ ["---".toList, []]) ++
            (('#' :: T) :: L ++ SlidesConverter.slidesBlocksGo
              (rest2.map (fun p => SlidesConverter.mkSimpleSlide p.1 p.2)) (i + 2) n) =
            (("## Slide ".toList ++ natStr (i + 1) ++ ':' :: ' ' :: p.1) ::
              [] :: (List.map (fun b => '-' :: ' ' :: b) p.2 ++ [[]])) ++
              ("---".toList :: [] :: ('#' :: T) ::
                (L ++ SlidesConverter.slidesBlocksGo
                  (rest2.map (fun p => SlidesConverter.mkSimpleSlide p.1 p.2)) (i + 2) n))
          from by simp]
        have htriple : containsSeq "---".toList
            (joinWith ['\n'] (("## Slide ".toList ++ natStr (i + 1) ++ ':' :: ' ' :: p.1) ::
              [] :: (List.map (fun b => '-' :: ' ' :: b) p.2 ++ [[]]))) = false := by
          apply containsSeq_triple_join _ (by simp)
          intro l hl
          rcases List.mem_cons.mp hl with h1 | h2
          · rw [h1]; exact tri_hdr (i + 1) p.1 ht4
          · rcases List.mem_cons.mp h2 with h3 | h4
            · rw [h3]; decide
            · rcases List.mem_append.mp h4 with h5 | h6
              · obtain ⟨b, hbmem, hbeq⟩ := List.mem_map.mp h5
                rw [← hbeq]
                exact tri_bullet b (hbs3 b hbmem)
              · have h7 : l = [] := by simpa using h6
                rw [h7]
                decide
        rw [show joinWith ['\n'] ((("## Slide ".toList ++ natStr (i + 1) ++ ':' :: ' ' :: p.1) ::
              [] :: (List.map (fun b => '-' :: ' ' :: b) p.2 ++ [[]])) ++
              ("---".toList :: [] :: ('#' :: T) ::
                (L ++ SlidesConverter.slidesBlocksGo
                  (rest2.map (fun p => SlidesConverter.mkSimpleSlide p.1 p.2)) (i + 2) n))) =
            joinWith ['\n'] (("## Slide ".toList ++ natStr (i + 1) ++ ':' :: ' ' :: p.1) ::
              [] :: (List.map (fun b => '-' :: ' ' :: b) p.2 ++ [[]])) ++
              '\n' :: '-' :: '-' :: '-' :: '\n' :: '\n' ::
              joinWith ['\n'] (('#' :: T) ::
                (L ++ SlidesConverter.slidesBlocksGo
                  (rest2.map (fun p => SlidesConverter.mkSimpleSlide p.1 p.2)) (i + 2) n))
          from by
            rw [joinWith_append _ _ _ (by simp) (by simp),
              joinWith_cons2 ['\n'] "---".toList [] _,
              joinWith_cons2 ['\n'] [] ('#' :: T) _]
            simp]
        rw [sdGo_until_sep _ htriple [] _]
        simp only [List.reverse_nil, List.nil_append]
        rw [sdGo_skip_nl, sdGo_skip_nl, hY, sdGo_skip_exit _ '#' _ (by decide), ← hY]
        rw [← hRshape,
          show (SlidesConverter.mkSimpleSlide p2.1 p2.2 :: List.map
              (fun p => SlidesConverter.mkSimpleSlide p.1 p.2) rest2) =
            List.map (fun p => SlidesConverter.mkSimpleSlide p.1 p.2) (p2 :: rest2)
          from by simp]
        rw [List.filterMap_cons]
        rw [show (("## Slide ".toList ++ natStr (i + 1) ++ ':' :: ' ' :: p.1) ::
              [] :: (List.map (fun b => '-' :: ' ' :: b) p.2 ++ [[]])) =
            (("## Slide ".toList ++ natStr (i + 1) ++ ':' :: ' ' :: p.1) ::
              [] :: List.map (fun b => '-' :: ' ' :: b) p.2) ++ [[]]
          from by simp]
        rw [show joinWith ['\n'] ((("## Slide ".toList ++ natStr (i + 1) ++ ':' :: ' ' :: p.1) ::
              [] :: List.map (fun b => '-' :: ' ' :: b) p.2) ++ [[]]) ++ ['\n'] =
            joinWith ['\n'] (("## Slide ".toList ++ natStr (i + 1) ++ ':' :: ' ' :: p.1) ::
              [] :: List.map (fun b => '-' :: ' ' :: b) p.2) ++ ['\n', '\n']
          from by
            rw [joinWith_append _ _ _ (by simp) (by simp)]
            simp [joinWith]]
        rw [parseSection_slide (i + 1) p.1 p.2 ['\n', '\n'] ht1 ht2 ht3 hbs1 hbne (by decide)]
        rw [ih (i + 1) n (by simp) (fun q hq => hgood q (by simp [hq]))
          (by simp at hlen ⊢; omega)]

/-- C3 (amended): for every presentation built from a nonempty list of
title-and-plain-bullets slides (titles and bullets nonempty, trim-fixed,
newline-free, free of dash triples, bullets not starting with a pipe), parsing
the Markdown produced by toMarkdown yields the preamble pseudo-slide
(presentation title, no bullets) followed by exactly the input slides: one
more slide than the input, with every input title and bullet list preserved
at index shifted by one. -/
theorem c3_roundtrip_main (title : Str) (spec : List (Str × List Str))
    (htitle : goodText title) (hspec : spec ≠ [])
    (hgood : ∀ p ∈ spec, goodText p.1 ∧ ∀ b ∈ p.2, goodBullet b) :
    SlidesConverter.parseMarkdownToSlides (SlidesConverter.toMarkdown
      ⟨title, spec.map (fun p => SlidesConverter.mkSimpleSlide p.1 p.2)⟩) =
      (title, []) :: spec := by
  obtain ⟨ht1, ht2, ht3, ht4⟩ := htitle
  obtain ⟨q, qs, hq⟩ := List.exists_cons_of_ne_nil hspec
  subst hq
  unfold SlidesConverter.parseMarkdownToSlides SlidesConverter.toMarkdown
    SlidesConverter.splitDashes
  simp only [List.map_cons]
  simp only [List.length_map, List.length_cons, Nat.zero_add, SlidesConverter.slidesBlocksGo]
  obtain ⟨T, L, hshape0⟩ := slideBlock_shape 0 (qs.length + 1)
    (SlidesConverter.mkSimpleSlide q.1 q.2)
  have hRshape0 : SlidesConverter.slidesBlocksGo
      (SlidesConverter.mkSimpleSlide q.1 q.2 :: qs.map
        (fun p => SlidesConverter.mkSimpleSlide p.1 p.2)) 0 (qs.length + 1) =
      ('#' :: T) :: (L ++ SlidesConverter.slidesBlocksGo
        (qs.map (fun p => SlidesConverter.mkSimpleSlide p.1 p.2)) 1 (qs.length + 1)) := by
    rw [SlidesConverter.slidesBlocksGo, hshape0]
    rfl
  obtain ⟨Y, hY⟩ := joinWith_cons_head ['\n'] '#' T
    (L ++ SlidesConverter.slidesBlocksGo
      (qs.map (fun p => SlidesConverter.mkSimpleSlide p.1 p.2)) 1 (qs.length + 1))
  rw [hshape0]
  rw [show "# ".toList ++ title = '#' :: ' ' :: title from by simp]
  rw [show ('*' :: natStr (qs.length + 1)) ++ " slides*".toList =
      '*' :: (natStr (qs.length + 1) ++ " slides*".toList) from by simp]
  rw [show (['#' :: ' ' :: title, [],
        '*' :: (natStr (qs.length + 1) ++ " slides*".toList), [], "---".toList, []] ++
        (('#' :: T) :: L ++ SlidesConverter.slidesBlocksGo
          (qs.map (fun p => SlidesConverter.mkSimpleSlide p.1 p.2)) 1 (qs.length + 1))) =
      ('#' :: ' ' :: title) :: [] ::
        ('*' :: (natStr (qs.length + 1) ++ " slides*".toList)) :: [] ::
        "---".toList :: [] :: ('#' :: T) ::
        (L ++ SlidesConverter.slidesBlocksGo
          (qs.map (fun p => SlidesConverter.mkSimpleSlide p.1 p.2)) 1 (qs.length + 1))
    from by simp]
  rw [show joinWith ['\n'] (('#' :: ' ' :: title) :: [] ::
        ('*' :: (natStr (qs.length + 1) ++ " slides*".toList)) :: [] ::
        "---".toList :: [] :: ('#' :: T) ::
        (L ++ SlidesConverter.slidesBlocksGo
          (qs.map (fun p => SlidesConverter.mkSimpleSlide p.1 p.2)) 1 (qs.length + 1))) =
      (joinWith ['\n'] [('#' :: ' ' :: title), [],
        ('*' :: (natStr (qs.length + 1) ++ " slides*".toList))] ++ ['\n']) ++
        '\n' :: '-' :: '-' :: '-' :: '\n' :: '\n' ::
        joinWith ['\n'] (('#' :: T) ::
          (L ++ SlidesConverter.slidesBlocksGo
            (qs.map (fun p => SlidesConverter.mkSimpleSlide p.1 p.2)) 1 (qs.length + 1)))
    from by simp [joinWith]]
  have htripleC : containsSeq "---".toList
      (joinWith ['\n'] [('#' :: ' ' :: title), [],
        ('*' :: (natStr (qs.length + 1) ++ " slides*".toList))] ++ ['\n']) = false := by
    rw [containsSeq_triple_append_nl]
    have h1 : containsSeq "---".toList
        (joinWith ['\n'] [('#' :: ' ' :: title), [],
          ('*' :: (natStr (qs.length + 1) ++ " slides*".toList))]) = false := by
      apply containsSeq_triple_join _ (by simp)
      intro l hl
      rcases List.mem_cons.mp hl with h1 | h2
      · rw [h1]; exact tri_h0 title ht4
      · rcases List.mem_cons.mp h2 with h3 | h4
        · rw [h3]; decide
        · have h5 : l = '*' :: (natStr (qs.length + 1) ++ " slides*".toList) := by
            simpa using h4
          rw [h5]
          exact tri_meta (qs.length + 1)
    rw [h1]
    decide
  rw [sdGo_until_sep _ htripleC [] _]
  simp only [List.reverse_nil, List.nil_append]
  rw [sdGo_skip_nl, sdGo_skip_nl, hY, sdGo_skip_exit _ '#' _ (by decide), ← hY]
  rw [← hRshape0,
    show (SlidesConverter.mkSimpleSlide q.1 q.2 :: List.map
        (fun p => SlidesConverter.mkSimpleSlide p.1 p.2) qs) =
      List.map (fun p => SlidesConverter.mkSimpleSlide p.1 p.2) (q :: qs)
    from by simp]
  rw [List.filterMap_cons]
  rw [show (joinWith ['\n'] [('#' :: ' ' :: title), [],
        ('*' :: (natStr (qs.length + 1) ++ " slides*".toList))] ++ ['\n']) ++ ['\n'] =
      joinWith ['\n'] [('#' :: ' ' :: title), [],
        ('*' :: (natStr (qs.length + 1) ++ " slides*".toList))] ++ ['\n', '\n']
    from by simp]
  rw [parseSection_preamble title (qs.length + 1) ['\n', '\n'] ht1 ht2 ht3 (by decide)]
  rw [c3_tail (q :: qs) 0 (qs.length + 1) (by simp) hgood (by simp)]

/-- C3 (counterexample): the slide count is NOT preserved by the round trip.
A one-slide presentation titled P with a single slide A serializes to a
Markdown document whose parse has two sections: the preamble (title line plus
the slide-count metadata line) becomes an extra leading slide carrying the
presentation title, ahead of the real slide. -/
theorem c3_counterexample :
    (SlidesConverter.parseMarkdownToSlides (SlidesConverter.toMarkdown
      ⟨"P".toList, [SlidesConverter.mkSimpleSlide "A".toList []]⟩)).length = 2 ∧
    ([SlidesConverter.mkSimpleSlide "A".toList []] : List SlidesConverter.Slide).length = 1 := by
  constructor
  · rfl
  · rfl

/-- C3 (witness): the amended round trip evaluated on the concrete
presentation with title P and one slide A carrying bullet x. -/
theorem c3_witness :
    SlidesConverter.parseMarkdownToSlides (SlidesConverter.toMarkdown
      ⟨"P".toList, [("A".toList, ["x".toList])].map
        (fun p => SlidesConverter.mkSimpleSlide p.1 p.2)⟩) =
      ("P".toList, []) :: [("A".toList, ["x".toList])] :=
  c3_roundtrip_main "P".toList [("A".toList, ["x".toList])] (by decide) (by decide) (by decide)
